import Mathlib

/-!
# Verification of the receipt-scanner core

A shallow embedding of the receipt-scanner core components, translated from
the TypeScript sources:

* date/time parsing and normalization (src/unnamed/part_000);
* the heuristic OCR line parser (src/lib/receipt-ocr.ts);
* the duplicate detector (src/lib/db.ts, hasReceiptWithPurchaseDate);
* the save-time quantity/price reconciliation (src/unnamed/part_006);
* the AI-response normalizer (src/unnamed/part_002).

Modelling conventions:

* JS strings are embedded as `List Char`; the public entry points take
  `String` and convert at the boundary.
* JS numbers are embedded as `ℚ`.  Every numeric literal reaching the core
  comes from a short decimal digit string, and every arithmetic operation
  performed on it (comparison, subtraction, division, two-decimal rounding)
  is exact on the values exercised by the theorems below, so the binary
  floating-point representation is not modelled.
* `number.toFixed(2)` followed by `Number.parseFloat` is embedded as
  `round2`, rounding half-up (the ECMAScript `toFixed` tie rule picks the
  larger candidate, i.e. ties go toward plus infinity).
* JS `Date` is embedded as a record of normalized local calendar
  components; `new Date(y, m, d, h, mi, s)` component overflow/underflow
  wraps into adjacent months exactly as the ECMAScript MakeDay/MakeTime
  algorithms prescribe, and `getTime` is computed with the standard
  civil-calendar day numbering (days relative to 1970-01-01).
* each regular expression of the source is hand-compiled into a
  deterministic matcher on `List Char`; where the regex engine could
  backtrack, the corresponding derivation comment argues why the greedy
  choice is forced, so the matcher and the regex agree on every input.
-/

set_option linter.unusedVariables false

namespace ReceiptScanner

/-! ## Character classes (JS regex classes, ASCII inputs) -/

/-- The JS regex class `\d`. -/
def isDigitChar (c : Char) : Bool := decide ('0' ≤ c ∧ c ≤ '9')

/-- The JS regex class `\s`, restricted to the whitespace characters that can
occur in the embedded inputs (space, tab, LF, CR, FF, VT). -/
def isWsChar (c : Char) : Bool :=
  c = ' ' || c = '\t' || c = '\n' || c = '\r' || c = '\x0b' || c = '\x0c'

/-- The JS regex class `[A-Za-z]` (used by hasLetters and tax-code tails). -/
def isAsciiLetter (c : Char) : Bool :=
  decide ('A' ≤ c ∧ c ≤ 'Z') || decide ('a' ≤ c ∧ c ≤ 'z')

/-- The JS regex class `\w` = `[A-Za-z0-9_]`. -/
def isWordChar (c : Char) : Bool :=
  isAsciiLetter c || isDigitChar c || c = '_'

/-- ASCII lower-casing of one character (model of String.toLowerCase on the
ASCII receipts this code processes). -/
def toLowerChar (c : Char) : Char :=
  if 'A' ≤ c ∧ c ≤ 'Z' then Char.ofNat (c.toNat + 32) else c

/-- ASCII upper-casing of one character (model of String.toUpperCase). -/
def toUpperChar (c : Char) : Char :=
  if 'a' ≤ c ∧ c ≤ 'z' then Char.ofNat (c.toNat - 32) else c

/-- Numeric value of a digit character. -/
def digitVal (c : Char) : ℕ := c.toNat - '0'.toNat

/-! ## Small string (list) helpers shared by the embedded functions -/

/-- Does the second list start with the first one? -/
def leadEq : List Char → List Char → Bool
  | [], _ => true
  | _ :: _, [] => false
  | a :: as, b :: bs => a = b && leadEq as bs

/-- Case-insensitive variant of `leadEq` (ASCII). -/
def leadEqCI : List Char → List Char → Bool
  | [], _ => true
  | _ :: _, [] => false
  | a :: as, b :: bs => toLowerChar a = toLowerChar b && leadEqCI as bs

/-- Substring containment, the model of JS String.prototype.includes. -/
def hasSub (needle : List Char) : List Char → Bool
  | [] => leadEq needle []
  | c :: rest => leadEq needle (c :: rest) || hasSub needle rest

/-- Model of String.prototype.trim (strip `\s` at both ends). -/
def jsTrim (cs : List Char) : List Char :=
  ((cs.dropWhile isWsChar).reverse.dropWhile isWsChar).reverse

mutual

/-- Model of `replace(/\s+/g, ' ')`: every maximal whitespace run collapses to
one space.  `collapseAfterWs` is the state in which the current whitespace run
has already emitted its single space. -/
def collapseWs : List Char → List Char
  | [] => []
  | c :: rest =>
    if isWsChar c then ' ' :: collapseAfterWs rest else c :: collapseWs rest

/-- Companion state of `collapseWs`: inside a whitespace run whose single
space was already emitted. -/
def collapseAfterWs : List Char → List Char
  | [] => []
  | c :: rest =>
    if isWsChar c then collapseAfterWs rest else c :: collapseWs rest

end

/-- Model of `split(/\r?\n/)`: cut at each LF, also consuming a CR directly
before it. -/
def splitLines (cs : List Char) : List (List Char) :=
  let rec go : List Char → List Char → List (List Char)
    | acc, [] => [acc.reverse]
    | acc, '\n' :: rest =>
      (match acc with
        | '\r' :: accTail => accTail.reverse
        | _ => acc.reverse) :: go [] rest
    | acc, c :: rest => go (c :: acc) rest
  go [] cs

/-- Auxiliary digit rendering, most significant first; the fuel only
bounds the recursion (any fuel at least the number suffices). -/
def repNatAux : ℕ → ℕ → List Char
  | 0, _ => []
  | fuel + 1, n =>
    if n = 0 then []
    else repNatAux fuel (n / 10) ++ [Char.ofNat ('0'.toNat + n % 10)]

/-- Decimal digit characters of a natural number, most significant first
(the model of JS number-to-string conversion for integer values). -/
def repNat (n : ℕ) : List Char :=
  if n = 0 then ['0'] else repNatAux (n + 1) n

/-- Value of a digit string, the model of `Number.parseInt(s, 10)` on an
all-digit capture. -/
def parseNatDigits (cs : List Char) : ℕ :=
  cs.foldl (fun acc c => 10 * acc + digitVal c) 0

/-- Model of `String(n).padStart(2, '0')` for the two-digit fields of the
canonical date rendering. -/
def pad2 (n : ℕ) : List Char :=
  if n < 10 then '0' :: repNat n else repNat n

/-! ## JS Date model

`new Date(y, m, d, h, mi, s)` (local time, 0-based month m) normalizes its
components exactly like the ECMAScript MakeDay/MakeTime algorithms: months
carry into the year with floor division, the time of day carries into whole
days, and an out-of-range day-of-month walks month by month into the
adjacent months.  The embedding stores the resulting normalized local
calendar components; `getTime` recovers the epoch offset through the
standard civil-from-days day numbering.  All divisions are euclidean
(the `/` and `%` of ℤ), which agree with the floor divisions of the spec
because every divisor is positive. -/

/-- Gregorian leap-year rule (as used by JS Date). -/
def isLeapYear (y : ℤ) : Bool :=
  (y % 4 = 0 && y % 100 ≠ 0) || y % 400 = 0

/-- Length of month `m` (1-based) of year `y`; months outside 1..12 are never
reached but default to 31 so the value is always at least 28. -/
def daysInMonth (y m : ℤ) : ℤ :=
  if m = 2 then (if isLeapYear y then 29 else 28)
  else if m = 4 ∨ m = 6 ∨ m = 9 ∨ m = 11 then 30
  else 31

/-- A JS Date value in normalized local calendar components
(month 1..12, day 1..daysInMonth). -/
structure JsDate where
  year : ℤ
  month : ℤ
  day : ℤ
  hour : ℤ
  minute : ℤ
  second : ℤ
deriving DecidableEq, Repr

/-- Walk an out-of-range day-of-month into the neighbouring months (the day
part of MakeDay).  The fuel only bounds the recursion so the function stays
structurally recursive and kernel-reducible; every argument produced by the
date parser needs at most a handful of steps and the callers pass fuel 5000,
far beyond the worst case reachable from two-digit regex captures. -/
def fixDay : ℕ → ℤ → ℤ → ℤ → (ℤ × ℤ × ℤ)
  | 0, y, m, d => (y, m, d)
  | fuel + 1, y, m, d =>
    if d < 1 then
      let pm := if m = 1 then (y - 1, (12 : ℤ)) else (y, m - 1)
      fixDay fuel pm.1 pm.2 (d + daysInMonth pm.1 pm.2)
    else if d > daysInMonth y m then
      let nm := if m = 12 then (y + 1, (1 : ℤ)) else (y, m + 1)
      fixDay fuel nm.1 nm.2 (d - daysInMonth y m)
    else (y, m, d)

/-- Model of `new Date(y, m0, d, h, mi, s)` with 0-based month `m0`:
normalize months into the year, carry the time of day into whole days, then
normalize the day of month. -/
def mkJsDate (y m0 d h mi s : ℤ) : JsDate :=
  let ym := y + m0 / 12
  let mn := m0 % 12
  let totalSec := h * 3600 + mi * 60 + s
  let dayCarry := totalSec / 86400
  let secOfDay := totalSec % 86400
  let hh := secOfDay / 3600
  let mm := secOfDay % 3600 / 60
  let ss := secOfDay % 60
  let ymd := fixDay 5000 ym (mn + 1) (d + dayCarry)
  ⟨ymd.1, ymd.2.1, ymd.2.2, hh, mm, ss⟩

/-- Day number of a civil date relative to 1970-01-01 (the standard
civil-from-days inverse used by every JS engine for local Date math). -/
def daysFromCivil (y m d : ℤ) : ℤ :=
  let y2 := if m ≤ 2 then y - 1 else y
  let era := y2 / 400
  let yoe := y2 - era * 400
  let mp := (m + 9) % 12
  let doy := (153 * mp + 2) / 5 + d - 1
  let doe := yoe * 365 + yoe / 4 - yoe / 100 + doy
  era * 146097 + doe - 719468

/-- Model of Date.prototype.getTime (milliseconds since the epoch; the local
time zone offset is a constant shared by construction and reading, so it
cancels and is taken to be zero). -/
def JsDate.getTime (dt : JsDate) : ℤ :=
  (daysFromCivil dt.year dt.month dt.day * 86400
    + dt.hour * 3600 + dt.minute * 60 + dt.second) * 1000

/-- Model of the buildDate helper of parseFlexibleDateTime
(src/unnamed/part_000 lines 38-48): construct the date, then reject it only
when `getTime` is NaN, which for component-built dates happens exactly when
the time value exceeds the ECMAScript range of 8.64e15 milliseconds. -/
def buildDate (y m0 d h mi s : ℤ) : Option JsDate :=
  let dt := mkJsDate y m0 d h mi s
  if dt.getTime < -8640000000000000 ∨ 8640000000000000 < dt.getTime then none
  else some dt

/-! ## Date pattern matchers

Hand-compiled forms of the two DATE_PATTERNS regexes and of the anchored
preferCurrentYear regex of src/unnamed/part_000.  The backtracking of the
regex engine is resolved as follows and nowhere else:

* `(\d{1,2})` followed by a required one-character class (separator or
  colon): the greedy two-digit take backtracks to one digit only if the
  class fails after two digits, and the class then reads the second digit,
  which is never a separator or colon; so the match takes two digits when
  the third character satisfies the class, one digit when the second does,
  and fails otherwise.
* `(\d{1,2})` / `(\d{2,4})` in final position (only optional pieces
  follow): the greedy maximal take always succeeds because every following
  piece can match empty, so no backtracking occurs.
* `(?:\s+...)?` optional time group: if its interior fails the group
  matches empty, leaving the rest of the input unconsumed.
* `(?:\s*(AM|PM))?`: `\s*` can only usefully take the whole whitespace run,
  since a shorter take leaves a whitespace character where A or P is
  required. -/

/-- Captured pieces of one date pattern match. -/
structure DateCaps where
  c1 : List Char
  c2 : List Char
  c3 : List Char
  hour : Option (List Char)
  minute : Option (List Char)
  second : Option (List Char)
  meridiem : Option (List Char)
deriving DecidableEq, Repr

/-- Greedy `(\d{1,2})` immediately followed by the required character
`sep`; returns the digit capture and the input after the separator. -/
def twoDigitsThen (sep : Char) : List Char → Option (List Char × List Char)
  | c1 :: c2 :: c3 :: rest =>
    if isDigitChar c1 then
      if isDigitChar c2 then
        if c3 = sep then some ([c1, c2], rest) else none
      else if c2 = sep then some ([c1], c3 :: rest) else none
    else none
  | [c1, c2] =>
    if isDigitChar c1 ∧ c2 = sep then some ([c1], []) else none
  | _ => none

/-- Greedy `(\d{1,2})` followed by one of the separators `[/.-]`; returns
capture, the separator seen, and the rest. -/
def twoDigitsThenSep : List Char → Option (List Char × List Char)
  | c1 :: c2 :: c3 :: rest =>
    if isDigitChar c1 then
      if isDigitChar c2 then
        if c3 = '/' ∨ c3 = '.' ∨ c3 = '-' then some ([c1, c2], rest) else none
      else if c2 = '/' ∨ c2 = '.' ∨ c2 = '-' then some ([c1], c3 :: rest)
      else none
    else none
  | [c1, c2] =>
    if isDigitChar c1 ∧ (c2 = '/' ∨ c2 = '.' ∨ c2 = '-') then some ([c1], [])
    else none
  | _ => none

/-- Greedy final `(\d{1,2})`: take two digits if available, else one. -/
def oneOrTwoDigits : List Char → Option (List Char × List Char)
  | c1 :: c2 :: rest =>
    if isDigitChar c1 then
      if isDigitChar c2 then some ([c1, c2], rest) else some ([c1], c2 :: rest)
    else none
  | [c1] => if isDigitChar c1 then some ([c1], []) else none
  | _ => none

/-- Greedy final `(\d{2,4})`: take up to four digits, at least two. -/
def twoToFourDigits (cs : List Char) : Option (List Char × List Char) :=
  let run := cs.takeWhile isDigitChar
  let k := min run.length 4
  if k < 2 then none else some (run.take k, cs.drop k)

/-- The optional suffix `(?:\s*(AM|PM))?`: skip the whitespace run and
consume a case-insensitive AM or PM if one follows, else consume nothing. -/
def matchMeridiem (cs : List Char) : Option (List Char) × List Char :=
  let ws := cs.takeWhile isWsChar
  let rest := cs.drop ws.length
  match rest with
  | a :: b :: tail =>
    if (toUpperChar a = 'A' ∨ toUpperChar a = 'P') ∧ toUpperChar b = 'M' then
      (some [a, b], tail)
    else (none, cs)
  | _ => (none, cs)

/-- The optional time group
`(?:\s+(\d{1,2}):(\d{2})(?::(\d{2}))?(?:\s*(AM|PM))?)?`.
Returns the three time captures, the meridiem capture and the rest of the
input; all-none with the input unchanged when the group matches empty. -/
def matchTimeOpt (cs : List Char) :
    Option (List Char) × Option (List Char) × Option (List Char) ×
      Option (List Char) × List Char :=
  let ws := cs.takeWhile isWsChar
  if ws.isEmpty then (none, none, none, none, cs)
  else
    let afterWs := cs.drop ws.length
    match twoDigitsThen ':' afterWs with
    | none => (none, none, none, none, cs)
    | some (hh, afterColon) =>
      match afterColon with
      | m1 :: m2 :: rest =>
        if isDigitChar m1 ∧ isDigitChar m2 then
          let (ss, rest2) :=
            match rest with
            | ':' :: s1 :: s2 :: tail =>
              if isDigitChar s1 ∧ isDigitChar s2 then
                (some [s1, s2], tail)
              else (none, rest)
            | _ => (none, rest)
          let (mer, rest3) := matchMeridiem rest2
          (some hh, some [m1, m2], ss, mer, rest3)
        else (none, none, none, none, cs)
      | _ => (none, none, none, none, cs)

/-- Attempt of the ymd regex
`(\d{4})[/.-](\d{1,2})[/.-](\d{1,2})(?: time )?` at the head of the input
(`(\d{4})` is an exact four-digit take, so it never backtracks). -/
def matchYmdAt (cs : List Char) : Option DateCaps :=
  match cs with
  | y1 :: y2 :: y3 :: y4 :: sep :: rest =>
    if isDigitChar y1 ∧ isDigitChar y2 ∧ isDigitChar y3 ∧ isDigitChar y4 ∧
        (sep = '/' ∨ sep = '.' ∨ sep = '-') then
      match twoDigitsThenSep rest with
      | none => none
      | some (mo, rest2) =>
        match oneOrTwoDigits rest2 with
        | none => none
        | some (dy, rest3) =>
          let (h, mi, s, mer, _) := matchTimeOpt rest3
          some ⟨[y1, y2, y3, y4], mo, dy, h, mi, s, mer⟩
    else none
  | _ => none

/-- Attempt of the dmy regex
`(\d{1,2})[/.-](\d{1,2})[/.-](\d{2,4})(?: time )?` at the head of the
input. -/
def matchDmyAt (cs : List Char) : Option DateCaps :=
  match twoDigitsThenSep cs with
  | none => none
  | some (d1, rest) =>
    match twoDigitsThenSep rest with
    | none => none
    | some (d2, rest2) =>
      match twoToFourDigits rest2 with
      | none => none
      | some (yy, rest3) =>
        let (h, mi, s, mer, _) := matchTimeOpt rest3
        some ⟨d1, d2, yy, h, mi, s, mer⟩

/-- Unanchored search of a pattern attempt: the leftmost position where the
attempt succeeds (model of RegExp.prototype.match on a pattern without
anchors). -/
def searchMatch (attempt : List Char → Option DateCaps) :
    List Char → Option DateCaps
  | [] => attempt []
  | c :: rest =>
    match attempt (c :: rest) with
    | some caps => some caps
    | none => searchMatch attempt rest

/-- The anchored preferCurrentYear regex
`^(\d{2})[/.-](\d{1,2})[/.-](\d{1,2})(?: time )?$`: the attempt runs at
position 0 only and the whole input must be consumed.  For the end anchor
the attempt tracks the rest of the input after the optional time group; the
greedy choices inside are still forced, because every backtracking
alternative leaves a digit or a whitespace character in a position that the
following piece can never match (see the derivation notes above). -/
def matchScanAnchored (cs : List Char) : Option DateCaps :=
  match cs with
  | y1 :: y2 :: sep :: rest =>
    if isDigitChar y1 ∧ isDigitChar y2 ∧ (sep = '/' ∨ sep = '.' ∨ sep = '-') then
      match twoDigitsThenSep rest with
      | none => none
      | some (mo, rest2) =>
        match oneOrTwoDigits rest2 with
        | none => none
        | some (dy, rest3) =>
          let (h, mi, s, mer, rest4) := matchTimeOpt rest3
          if rest4.isEmpty then some ⟨[y1, y2], mo, dy, h, mi, s, mer⟩
          else none
    else none
  | _ => none

/-! ## parseFlexibleDateTime and the normalizers (src/unnamed/part_000) -/

/-- The 12-hour adjustment of parseFlexibleDateTime: PM adds 12 below noon,
AM maps hour 12 to 0. -/
def applyMeridiem (mer : Option (List Char)) (hour : ℤ) : ℤ :=
  match mer with
  | none => hour
  | some m =>
    let up := m.map toUpperChar
    let h1 := if up = ['P', 'M'] ∧ hour < 12 then hour + 12 else hour
    if up = ['A', 'M'] ∧ h1 = 12 then 0 else h1

/-- `match[i] ? Number.parseInt(match[i], 10) : 0` for the optional time
captures. -/
def capToInt (o : Option (List Char)) : ℤ :=
  match o with
  | none => 0
  | some cs => (parseNatDigits cs : ℤ)

/-- The day/month disambiguation of the dmy pattern (src/unnamed/part_000
lines 105-114); returns the chosen day and the 0-based month. -/
def dmyDayMonth (first second : ℤ) : ℤ × ℤ :=
  if first > 12 ∧ second ≤ 12 then (first, second - 1)
  else if second > 12 ∧ first ≤ 12 then (second, first - 1)
  else (first, second - 1)

/-- The preferCurrentYear short-circuit of parseFlexibleDateTime
(src/unnamed/part_000 lines 50-81): anchored two-digit-year match, accepted
only when the two-digit year equals the current year mod 100; the year is
expanded as 2000 + YY.  A failed buildDate falls through (returns none). -/
def preferCurrentYearBranch (currentYear : ℤ) (cs : List Char) :
    Option JsDate :=
  match matchScanAnchored cs with
  | none => none
  | some caps =>
    let shortYear : ℤ := (parseNatDigits caps.c1 : ℤ)
    if shortYear = currentYear % 100 then
      let month := (parseNatDigits caps.c2 : ℤ) - 1
      let day : ℤ := (parseNatDigits caps.c3 : ℤ)
      let hour := applyMeridiem caps.meridiem (capToInt caps.hour)
      buildDate (2000 + shortYear) month day hour (capToInt caps.minute)
        (capToInt caps.second)
    else none

/-- The ymd arm of the DATE_PATTERNS loop. -/
def tryYmd (cs : List Char) : Option JsDate :=
  match searchMatch matchYmdAt cs with
  | none => none
  | some caps =>
    let year : ℤ := (parseNatDigits caps.c1 : ℤ)
    let month := (parseNatDigits caps.c2 : ℤ) - 1
    let day : ℤ := (parseNatDigits caps.c3 : ℤ)
    let hour := applyMeridiem caps.meridiem (capToInt caps.hour)
    buildDate year month day hour (capToInt caps.minute) (capToInt caps.second)

/-- The dmy arm of the DATE_PATTERNS loop, with the day/month
disambiguation and two-digit-year expansion. -/
def tryDmy (cs : List Char) : Option JsDate :=
  match searchMatch matchDmyAt cs with
  | none => none
  | some caps =>
    let first : ℤ := (parseNatDigits caps.c1 : ℤ)
    let second : ℤ := (parseNatDigits caps.c2 : ℤ)
    let rawYear : ℤ := (parseNatDigits caps.c3 : ℤ)
    let year := if rawYear < 100 then rawYear + 2000 else rawYear
    let dm := dmyDayMonth first second
    let hour := applyMeridiem caps.meridiem (capToInt caps.hour)
    buildDate year dm.2 dm.1 hour (capToInt caps.minute) (capToInt caps.second)

/-- The final `new Date(normalized)` fallback of parseFlexibleDateTime.
The platform Date-string constructor is a JS builtin whose grammar is
implementation-defined; it is modelled as rejecting every input.  No theorem
below depends on an input that reaches this fallback: every input they
exercise matches one of the explicit patterns first. -/
def jsDateFallback (_cs : List Char) : Option JsDate := none

/-- parseFlexibleDateTime (src/unnamed/part_000 lines 32-139).  The ambient
current year (`new Date().getFullYear()`) is passed explicitly as
`currentYear`; the source reads it only under `options.preferCurrentYear`. -/
def parseFlexibleDateTime (preferCurrentYear : Bool) (currentYear : ℤ)
    (value : List Char) : Option JsDate :=
  let normalized := jsTrim (collapseWs value)
  if normalized.isEmpty then none
  else
    (if preferCurrentYear then preferCurrentYearBranch currentYear normalized
     else none).orElse fun _ =>
    (tryYmd normalized).orElse fun _ =>
    (tryDmy normalized).orElse fun _ =>
    jsDateFallback normalized

/-- JS rendering of a (possibly negative) integer. -/
def repInt (n : ℤ) : List Char :=
  if n < 0 then '-' :: repNat (Int.toNat (-n)) else repNat (Int.toNat n)

/-- `pad2` on the (always normalized, hence non-negative) date fields. -/
def pad2Int (n : ℤ) : List Char := pad2 (Int.toNat n)

/-- formatDateTimeLocal (src/unnamed/part_000 lines 141-145): the fixed
zero-padded canonical rendering. -/
def formatDateTimeLocal (dt : JsDate) : List Char :=
  repInt dt.year ++ '-' :: pad2Int dt.month ++ '-' :: pad2Int dt.day ++
    ' ' :: pad2Int dt.hour ++ ':' :: pad2Int dt.minute ++
    ':' :: pad2Int dt.second

/-- normalizeReceiptDateTime (src/unnamed/part_000 lines 147-153). -/
def normalizeReceiptDateTime (value : String) : Option String :=
  (parseFlexibleDateTime false 0 value.toList).map
    (fun dt => String.mk (formatDateTimeLocal dt))

/-- normalizeReceiptDateTimeFromScan (src/unnamed/part_000 lines 155-161);
`nowYear` is the ambient current year. -/
def normalizeReceiptDateTimeFromScan (nowYear : ℤ) (value : String) :
    Option String :=
  (parseFlexibleDateTime true nowYear value.toList).map
    (fun dt => String.mk (formatDateTimeLocal dt))

/-! ## Two-decimal currency rounding

`x.toFixed(2)` followed by `Number.parseFloat` of the result.  ECMAScript
toFixed picks the integer n minimizing the distance of n / 100 to the
value, taking the larger n on a tie, i.e. rounds half toward plus
infinity. -/

/-- Model of `Number.parseFloat(x.toFixed(2))`. -/
def round2 (q : ℚ) : ℚ := ((Int.floor (q * 100 + 1 / 2) : ℚ)) / 100

/-! ## Duplicate detector (src/lib/db.ts, hasReceiptWithPurchaseDate)

The stored receipts are passed as an in-memory list standing for the two
SQL result sets: the first phase filters it by exact datetime string
equality (the WHERE clause of the first query), the second phase scans all
of it (the second, unfiltered query). -/

/-- One stored receipt row as selected by both queries. -/
structure ReceiptRow where
  purchase_datetime : String
  total : Option ℚ
  subtotal : Option ℚ
  tax : Option ℚ
deriving DecidableEq, Repr

/-- `row.total ?? (row.subtotal !== null && row.tax !== null ?
row.subtotal + row.tax : null)`. -/
def rowTotal (row : ReceiptRow) : Option ℚ :=
  match row.total with
  | some t => some t
  | none =>
    match row.subtotal, row.tax with
    | some s, some t => some (s + t)
    | _, _ => none

/-- The total comparison shared by both phases: missing totals on either
side match, otherwise the rounded totals must agree within one cent. -/
def totalMatches (roundedTotal : Option ℚ) (row : ReceiptRow) : Bool :=
  match roundedTotal with
  | none => true
  | some rt =>
    match rowTotal row with
    | none => true
    | some t => |round2 t - rt| ≤ 1 / 100

/-- hasReceiptWithPurchaseDate (src/lib/db.ts lines 328-399) with the
database replaced by the given row list; the source defaults `toleranceMs`
to 60000. -/
def hasReceiptWithPurchaseDate (purchaseDateTime : String) (total : Option ℚ)
    (toleranceMs : ℤ) (rows : List ReceiptRow) : Bool :=
  let roundedTotal := total.map round2
  let exactRows := rows.filter (fun row => row.purchase_datetime = purchaseDateTime)
  let exactHit :=
    if exactRows.isEmpty then false
    else
      match roundedTotal with
      | none => true
      | some _ => exactRows.any (totalMatches roundedTotal)
  if exactHit then true
  else
    match parseFlexibleDateTime false 0 purchaseDateTime.toList with
    | none => false
    | some target =>
      let targetTime := target.getTime
      rows.any fun row =>
        match parseFlexibleDateTime false 0 row.purchase_datetime.toList with
        | none => false
        | some parsed =>
          if |parsed.getTime - targetTime| ≤ toleranceMs then
            totalMatches roundedTotal row
          else false

/-! ## Save-time reconciliation (src/unnamed/part_006, handleSave)

The per-item block of handleSave (lines 372-394): derive a missing line
total from qty times unit price, then derive a missing unit price from
line total over a truthy (non-null, non-zero) qty; the stored unit price
is rounded to two decimals whenever it is present. -/

/-- The reconciliation of one item triple `(qty, unitPrice, lineTotal)`. -/
def reconcile (qty unitPrice lineTotal : Option ℚ) :
    Option ℚ × Option ℚ × Option ℚ :=
  let lineTotal2 :=
    match lineTotal, qty, unitPrice with
    | none, some q, some u => some (round2 (q * u))
    | _, _, _ => lineTotal
  let finalUnitPrice :=
    match unitPrice with
    | some u => some u
    | none =>
      match lineTotal2, qty with
      | some lt, some q => if q ≠ 0 then some (lt / q) else none
      | _, _ => none
  (qty, finalUnitPrice.map round2, lineTotal2)

/-! ## OCR line parser (src/lib/receipt-ocr.ts)

Each regex is hand-compiled as in the date module.  The recurring pieces:

* a greedy `\d+` or `\d{1,6}` directly followed by a required
  non-digit piece is forced to take the whole digit run, because any
  shorter take leaves a digit where the following piece (separator, `@`,
  whitespace, unit word) can never match;
* likewise the digit run of `(?:\.\d+)?`;
* the optional pieces `(kg|lb)?`, `\$?`, `(?:\/\w+)?` cannot rescue a
  failed match by matching empty instead, because the character they
  consumed is never accepted by the piece that follows them. -/

/-- parseFloat on a JS string: optional sign, digit run, optional fraction;
NaN (none) when no digits occur.  Only the decimal shapes produced by the
receipt regex captures reach this function, so the exotic parts of the
parseFloat grammar (exponents, Infinity, leading whitespace) are not
modelled. -/
def jsParseFloat (cs : List Char) : Option ℚ :=
  let (sign, cs1) : ℚ × List Char :=
    match cs with
    | '-' :: rest => (-1, rest)
    | '+' :: rest => (1, rest)
    | _ => (1, cs)
  let intRun := cs1.takeWhile isDigitChar
  let rest1 := cs1.drop intRun.length
  let fracRun :=
    match rest1 with
    | '.' :: t => t.takeWhile isDigitChar
    | _ => []
  if intRun.isEmpty ∧ fracRun.isEmpty then none
  else
    some (sign * ((parseNatDigits intRun : ℚ) +
      (parseNatDigits fracRun : ℚ) / (10 : ℚ) ^ fracRun.length))

/-- The first-occurrence character replacement of
`value.replace(',', '.')` (a string pattern replaces only once). -/
def replaceFirstChar (a b : Char) : List Char → List Char
  | [] => []
  | c :: rest => if c = a then b :: rest else c :: replaceFirstChar a b rest

/-- parseMoney (src/lib/receipt-ocr.ts lines 35-38). -/
def parseMoney (cs : List Char) : Option ℚ :=
  jsParseFloat (replaceFirstChar ',' '.' cs)

/-- The numeric core `\d{1,6}[.,]\d{2}` of PRICE_PATTERN at one position:
the digit run must have length 1..6 (a longer run can never back off,
since the character after a shorter take is a digit, not a separator). -/
def priceNumAt (cs : List Char) : Option (List Char × List Char) :=
  let run := cs.takeWhile isDigitChar
  if run.isEmpty ∨ 6 < run.length then none
  else
    match cs.drop run.length with
    | sep :: d1 :: d2 :: rest =>
      if (sep = '.' ∨ sep = ',') ∧ isDigitChar d1 ∧ isDigitChar d2 then
        some (run ++ sep :: [d1, d2], rest)
      else none
    | _ => none

/-- PRICE_PATTERN `-?\d{1,6}[.,]\d{2}` at one position (the optional minus
is taken when present; dropping it cannot help, since the position then
starts with the minus, which is not a digit). -/
def priceMatchAt (cs : List Char) : Option (List Char × List Char) :=
  match cs with
  | '-' :: rest => (priceNumAt rest).map (fun p => ('-' :: p.1, p.2))
  | _ => priceNumAt cs

/-- `matchAll(PRICE_PATTERN)`: the non-overlapping leftmost matches with
their indices.  The fuel argument only bounds the recursion (each step
either consumes a match of length at least four or advances one
character), so `length + 1` fuel is always enough. -/
def priceScan : ℕ → ℕ → List Char → List (ℕ × List Char)
  | 0, _, _ => []
  | _ + 1, _, [] => []
  | fuel + 1, i, c :: rest =>
    match priceMatchAt (c :: rest) with
    | some (m, r) => (i, m) :: priceScan fuel (i + m.length) r
    | none => priceScan fuel (i + 1) rest

/-- All PRICE_PATTERN matches of a line, with indices. -/
def priceMatchAll (cs : List Char) : List (ℕ × List Char) :=
  priceScan (cs.length + 1) 0 cs

/-- The shared tail `@\s*\$?\s*(\d{1,6}[.,]\d{2})` of both unit-price
regexes, applied after the `@`; returns the price capture and the rest. -/
def unitPriceTail (cs : List Char) : Option (List Char × List Char) :=
  let afterWs := cs.drop (cs.takeWhile isWsChar).length
  let afterDollar :=
    match afterWs with
    | '$' :: t => t
    | _ => afterWs
  let afterWs2 := afterDollar.drop (afterDollar.takeWhile isWsChar).length
  priceNumAt afterWs2

/-- `(\d+(?:\.\d+)?)` at one position: the full digit run with an optional
fraction, both forced maximal. -/
def decimalNumAt (cs : List Char) : Option (List Char × List Char) :=
  let run := cs.takeWhile isDigitChar
  if run.isEmpty then none
  else
    match cs.drop run.length with
    | '.' :: t =>
      let frac := t.takeWhile isDigitChar
      if frac.isEmpty then some (run, cs.drop run.length)
      else some (run ++ '.' :: frac, t.drop frac.length)
    | rest => some (run, rest)

/-- The weight regex `(\d+(?:\.\d+)?)\s*(kg|lb)\s*@\s*\$?\s*(price)` of
parseUnitLine at one position; returns the weight and price captures. -/
def weightMatchAt (cs : List Char) : Option (List Char × List Char) :=
  match decimalNumAt cs with
  | none => none
  | some (w, rest) =>
    let afterWs := rest.drop (rest.takeWhile isWsChar).length
    match afterWs with
    | u1 :: u2 :: rest2 =>
      if leadEqCI ['k', 'g'] [u1, u2] ∨ leadEqCI ['l', 'b'] [u1, u2] then
        let afterWs2 := rest2.drop (rest2.takeWhile isWsChar).length
        match afterWs2 with
        | '@' :: rest3 =>
          match unitPriceTail rest3 with
          | some (p, rest4) => some (w, p)
          | none => none
        | _ => none
      else none
    | _ => none

/-- The count regex `(\d+)\s*@\s*\$?\s*(price)` of parseUnitLine at one
position. -/
def unitMatchAt (cs : List Char) : Option (List Char × List Char) :=
  let run := cs.takeWhile isDigitChar
  if run.isEmpty then none
  else
    let rest := cs.drop run.length
    let afterWs := rest.drop (rest.takeWhile isWsChar).length
    match afterWs with
    | '@' :: rest2 =>
      match unitPriceTail rest2 with
      | some (p, _) => some (run, p)
      | none => none
    | _ => none

/-- Leftmost unanchored search for a two-capture matcher. -/
def searchPair (attempt : List Char → Option (List Char × List Char)) :
    List Char → Option (List Char × List Char)
  | [] => attempt []
  | c :: rest =>
    match attempt (c :: rest) with
    | some p => some p
    | none => searchPair attempt rest

/-- The qty and unitPrice read off a quantity-at-price line. -/
structure UnitLine where
  qty : Option ℚ
  unitPrice : Option ℚ
deriving DecidableEq, Repr

/-- parseUnitLine (src/lib/receipt-ocr.ts lines 77-97): the weight form is
tried first, then the count form.  The weight capture `\d+(?:\.\d+)?`
always parses, so its parseFloat is the total `getD 0` variant. -/
def parseUnitLine (cs : List Char) : Option UnitLine :=
  match searchPair weightMatchAt cs with
  | some (w, p) => some ⟨some ((jsParseFloat w).getD 0), parseMoney p⟩
  | none =>
    match searchPair unitMatchAt cs with
    | some (d, p) => some ⟨some ((parseNatDigits d : ℚ)), parseMoney p⟩
    | none => none

/-- The character strip `replace(/[0-9.,\s@$]/g, '')` of isUnitOnlyLine. -/
def stripUnitChars (cs : List Char) : List Char :=
  cs.filter fun c =>
    ¬ (isDigitChar c ∨ c = '.' ∨ c = ',' ∨ isWsChar c ∨ c = '@' ∨ c = '$')

/-- `replace(/kg|lb/gi, '')`: remove every occurrence, scanning left to
right over the original string. -/
def removeAllKgLb : List Char → List Char
  | a :: b :: t =>
    if leadEqCI ['k', 'g'] [a, b] ∨ leadEqCI ['l', 'b'] [a, b] then
      removeAllKgLb t
    else a :: removeAllKgLb (b :: t)
  | short => short

/-- `replace(/\/(kg|lb)/gi, '')`. -/
def removeAllSlashKgLb : List Char → List Char
  | s :: a :: b :: t =>
    if s = '/' ∧ (leadEqCI ['k', 'g'] [a, b] ∨ leadEqCI ['l', 'b'] [a, b]) then
      removeAllSlashKgLb t
    else s :: removeAllSlashKgLb (a :: b :: t)
  | short => short

/-- isUnitOnlyLine (src/lib/receipt-ocr.ts lines 99-108). -/
def isUnitOnlyLine (cs : List Char) (unitLine : Option UnitLine) : Bool :=
  match unitLine with
  | none => false
  | some _ =>
    (removeAllSlashKgLb (removeAllKgLb (stripUnitChars cs))).isEmpty

/-- The fragment regex of removeUnitFragment at one position (the leading
word boundary is checked by the caller):
`\d+(?:\.\d+)?\s*(kg|lb)?\s*@\s*\$?\s*\d{1,6}[.,]\d{2}(?:\/\w+)?\b`.
When the trailing boundary fails the position fails: the only backtracking
candidates re-read a digit with a non-digit piece and die. -/
def fragMatchAt (cs : List Char) : Option (List Char) :=
  match decimalNumAt cs with
  | none => none
  | some (_, rest) =>
    let afterWs := rest.drop (rest.takeWhile isWsChar).length
    let afterUnit :=
      match afterWs with
      | u1 :: u2 :: t =>
        if leadEqCI ['k', 'g'] [u1, u2] ∨ leadEqCI ['l', 'b'] [u1, u2] then t
        else afterWs
      | _ => afterWs
    let afterWs2 := afterUnit.drop (afterUnit.takeWhile isWsChar).length
    match afterWs2 with
    | '@' :: rest3 =>
      match unitPriceTail rest3 with
      | none => none
      | some (_, rest4) =>
        let rest5 :=
          match rest4 with
          | '/' :: t =>
            let w := t.takeWhile isWordChar
            if w.isEmpty then rest4 else t.drop w.length
          | _ => rest4
        match rest5 with
        | [] => some rest5
        | c :: _ => if isWordChar c then none else some rest5
    | _ => none

/-- The replace-first scan of removeUnitFragment: at every position where a
word boundary precedes a digit, try the fragment; on the first hit drop the
matched region. -/
def fragGo (prevWord : Bool) (acc : List Char) : List Char → List Char
  | [] => acc.reverse
  | c :: rest =>
    if ¬ prevWord ∧ isDigitChar c then
      match fragMatchAt (c :: rest) with
      | some r => acc.reverse ++ r
      | none => fragGo (isWordChar c) (c :: acc) rest
    else fragGo (isWordChar c) (c :: acc) rest

/-- removeUnitFragment (src/lib/receipt-ocr.ts lines 110-115). -/
def removeUnitFragment (cs : List Char) : List Char :=
  fragGo false [] cs

/-- The ignore-keyword list (src/lib/receipt-ocr.ts lines 10-30). -/
def IGNORE_LINE_KEYWORDS : List (List Char) :=
  ["subtotal", "tax", "total", "balance", "change", "cash", "visa",
   "mastercard", "amex", "amount", "tip", "gratuity", "loyalty", "pts",
   "coupon", "discount", "gst", "pst", "hst"].map String.toList

/-- shouldIgnoreLine (src/lib/receipt-ocr.ts lines 40-43). -/
def shouldIgnoreLine (cs : List Char) : Bool :=
  IGNORE_LINE_KEYWORDS.any fun kw => hasSub kw (cs.map toLowerChar)

/-- hasLetters (src/lib/receipt-ocr.ts lines 45-47). -/
def hasLetters (cs : List Char) : Bool := cs.any isAsciiLetter

/-- looksLikeCategoryHeader `^\d{2,}-[A-Z]/i` (lines 49-51): a leading
digit run of length at least two, a dash, then a letter. -/
def looksLikeCategoryHeader (cs : List Char) : Bool :=
  let run := cs.takeWhile isDigitChar
  match cs.drop run.length with
  | '-' :: c :: _ => 2 ≤ run.length ∧ isAsciiLetter c
  | _ => false

/-- looksLikeCodeOnly (lines 53-56): after removing whitespace, an optional
open paren, a nonempty digit run and an optional close paren fill the whole
line. -/
def looksLikeCodeOnly (cs : List Char) : Bool :=
  let compact := cs.filter fun c => ¬ isWsChar c
  let afterParen :=
    match compact with
    | '(' :: t => t
    | _ => compact
  let run := afterParen.takeWhile isDigitChar
  if run.isEmpty then false
  else
    match afterParen.drop run.length with
    | [] => true
    | [')'] => true
    | _ => false

/-- First replace `^\(?\d+\)?\s+` of stripLeadingCodes.  The close paren is
consumed when present and followed by whitespace; every other backtracking
alternative dies on a digit or paren where whitespace is required. -/
def slcParen (cs : List Char) : List Char :=
  let after :=
    match cs with
    | '(' :: t => t
    | _ => cs
  let run := after.takeWhile isDigitChar
  if run.isEmpty then cs
  else
    let rest := after.drop run.length
    match rest with
    | ')' :: t =>
      let ws := t.takeWhile isWsChar
      if ws.isEmpty then cs else t.drop ws.length
    | _ =>
      let ws := rest.takeWhile isWsChar
      if ws.isEmpty then cs else rest.drop ws.length

/-- Second replace `^\d{6,}\s+` of stripLeadingCodes. -/
def slcLongCode (cs : List Char) : List Char :=
  let run := cs.takeWhile isDigitChar
  if run.length < 6 then cs
  else
    let rest := cs.drop run.length
    let ws := rest.takeWhile isWsChar
    if ws.isEmpty then cs else rest.drop ws.length

/-- stripLeadingCodes (src/lib/receipt-ocr.ts lines 58-63). -/
def stripLeadingCodes (cs : List Char) : List Char :=
  jsTrim (slcLongCode (slcParen (jsTrim cs)))

/-- TAX_CODE_SUFFIXES (src/lib/receipt-ocr.ts line 33). -/
def TAX_CODE_SUFFIXES : List (List Char) :=
  ["MRJ", "HMRJ", "HST", "GST", "PST", "Q", "R", "T"].map String.toList

/-- Case-insensitive list equality (ASCII). -/
def ciEq (a b : List Char) : Bool :=
  a.map toLowerChar = b.map toLowerChar

/-- stripTaxCodeSuffix (lines 65-70), the regex `\s+(CODES)$/i`: the line
must end with a code immediately preceded by whitespace; the match removes
the code and the whole whitespace run before it (the leftmost match starts
at the first character of that run). -/
def stripTaxCodeSuffix (cs : List Char) : List Char :=
  let r := cs.reverse
  let tok := r.takeWhile fun c => ¬ isWsChar c
  let restR := r.drop tok.length
  let ws := restR.takeWhile isWsChar
  if ¬ tok.isEmpty ∧ ¬ ws.isEmpty ∧
      TAX_CODE_SUFFIXES.any (fun code => ciEq tok.reverse code) then
    (restR.drop ws.length).reverse
  else cs

/-- The trailing-quantity regex `^(\d+)\s+(.*)$` (line 206): a leading
digit run, a whitespace run, then the rest; the greedy `\s+` takes the
whole run since `.*` matches anything. -/
def qtyMatch (cs : List Char) : Option (List Char × List Char) :=
  let run := cs.takeWhile isDigitChar
  if run.isEmpty then none
  else
    let rest := cs.drop run.length
    let ws := rest.takeWhile isWsChar
    if ws.isEmpty then none else some (run, rest.drop ws.length)

mutual

/-- Collapse of `replace(/\s{2,}/g, ' ')` (line 190): only whitespace runs
of length at least two become one space; a lone whitespace character stays
as it is.  `collapseMultiTail` is the inside-a-run state. -/
def collapseMulti : List Char → List Char
  | [] => []
  | [c] => [c]
  | a :: b :: t =>
    if isWsChar a then
      if isWsChar b then ' ' :: collapseMultiTail t
      else a :: b :: collapseMulti t
    else a :: collapseMulti (b :: t)

/-- Companion state of `collapseMulti`: inside a run whose space was
emitted. -/
def collapseMultiTail : List Char → List Char
  | [] => []
  | c :: t => if isWsChar c then collapseMultiTail t else collapseMulti (c :: t)

end

/-- One parsed receipt item (ParsedReceiptItem, src/lib/receipt-ocr.ts
lines 3-8). -/
structure ParsedReceiptItem where
  description : String
  qty : Option ℚ
  unitPrice : Option ℚ
  lineTotal : Option ℚ
deriving DecidableEq, Repr

/-- The accumulator of the parseReceiptItems loop. -/
structure ParseState where
  items : List ParsedReceiptItem
  pendingDescription : Option (List Char)
  pendingUnit : Option UnitLine

/-- Apply a function to the last element of a list. -/
def updateLast (f : α → α) : List α → List α
  | [] => []
  | [x] => [f x]
  | x :: xs => x :: updateLast f (xs)

/-- The backfill of a dangling unit line into the previous item
(src/lib/receipt-ocr.ts lines 144-150 and 162-168): only null slots are
filled. -/
def backfillFromUnit (u : UnitLine) (it : ParsedReceiptItem) :
    ParsedReceiptItem :=
  let it1 := if it.qty = none ∧ u.qty ≠ none then { it with qty := u.qty } else it
  if it1.unitPrice = none ∧ u.unitPrice ≠ none then
    { it1 with unitPrice := u.unitPrice }
  else it1

/-- The dangling-unit-line handling shared by the no-amount branch and the
unit-only branch (src/lib/receipt-ocr.ts lines 143-153 and 161-171): with a
prior item, backfill it; otherwise buffer the unit line as pendingUnit. -/
def applyUnitToState (st : ParseState) (u : UnitLine) : ParseState :=
  if ¬ st.items.isEmpty then
    { st with items := updateLast (backfillFromUnit u) st.items }
  else { st with pendingUnit := some u }

/-- The description-candidate computation of the priced-line branch
(src/lib/receipt-ocr.ts lines 181-190): slice before the last match, strip
codes and tax suffix, remove the unit fragment, substitute the buffered
description when letterless, collapse runs of whitespace and trim. -/
def pricedDescription (st : ParseState) (sanitizedLine : List Char)
    (unitLine : Option UnitLine) (idx : ℕ) : List Char :=
  let dp0 := jsTrim (sanitizedLine.take idx)
  let dp1 := stripLeadingCodes dp0
  let dp2 := stripTaxCodeSuffix dp1
  let dp3 := if unitLine.isSome then removeUnitFragment dp2 else dp2
  let dp4 :=
    if ¬ hasLetters dp3 then
      match st.pendingDescription with
      | some pd => pd
      | none => dp3
    else dp3
  jsTrim (collapseMulti dp4)

/-- The field computation of the emitted item (src/lib/receipt-ocr.ts
lines 195-231): inline unit extraction, leading-quantity stripping,
pendingUnit application and unit-price derivation.  Returns the final
description, qty, unitPrice and the new pendingUnit buffer. -/
def emitFields (st : ParseState) (dp5 : List Char) (lineTotal : ℚ) :
    List Char × Option ℚ × Option ℚ × Option UnitLine :=
  let inline := parseUnitLine dp5
  let qty0 : Option ℚ :=
    match inline with
    | some iu => iu.qty
    | none => none
  let unitPrice0 : Option ℚ :=
    match inline with
    | some iu => iu.unitPrice
    | none => none
  let dp6 :=
    match inline with
    | some _ => jsTrim (removeUnitFragment dp5)
    | none => dp5
  let description0 := jsTrim dp6
  let qm := qtyMatch description0
  let qty1 : Option ℚ :=
    match qm with
    | some (digits, _) => some ((parseNatDigits digits : ℚ))
    | none => qty0
  let description1 :=
    match qm with
    | some (_, rest) => jsTrim rest
    | none => description0
  let afterPending :=
    match st.pendingUnit with
    | some pu =>
      (if qty1 = none ∧ pu.qty ≠ none then pu.qty else qty1,
       if unitPrice0 = none ∧ pu.unitPrice ≠ none then pu.unitPrice
       else unitPrice0,
       (none : Option UnitLine))
    | none => (qty1, unitPrice0, none)
  let qty2 := afterPending.1
  let unitPrice2 := afterPending.2.1
  let unitPrice3 :=
    match unitPrice2, qty2 with
    | none, some q => if q > 0 then some (round2 (lineTotal / q)) else none
    | up, _ => up
  (description1, qty2, unitPrice3, afterPending.2.2)

/-- The priced-line tail of the loop body (src/lib/receipt-ocr.ts lines
181-232), entered with the last amount match (its index and parsed value)
in hand: skip the line when the description candidate has no letters,
otherwise emit the item and clear the buffers. -/
def processPricedLine (st : ParseState) (sanitizedLine : List Char)
    (unitLine : Option UnitLine) (idx : ℕ) (lineTotal : ℚ) : ParseState :=
  let dp5 := pricedDescription st sanitizedLine unitLine idx
  if ¬ hasLetters dp5 then st
  else
    let em := emitFields st dp5 lineTotal
    { items := st.items ++
        [⟨String.mk em.1, em.2.1, em.2.2.1, some lineTotal⟩],
      pendingDescription := none,
      pendingUnit := em.2.2.2 }

/-- The body of the per-line loop of parseReceiptItems
(src/lib/receipt-ocr.ts lines 132-233). -/
def processLine (st : ParseState) (line : List Char) : ParseState :=
  if looksLikeCategoryHeader line ∨ looksLikeCodeOnly line then st
  else
    let sanitizedLine := line.filter (fun c => c ≠ '$')
    let unitLine := parseUnitLine sanitizedLine
    let priceMatches := priceMatchAll sanitizedLine
    if priceMatches.isEmpty then
      match unitLine with
      | some u => applyUnitToState st u
      | none =>
        if hasLetters sanitizedLine then
          { st with pendingDescription := some sanitizedLine }
        else st
    else if isUnitOnlyLine sanitizedLine unitLine then
      match unitLine with
      | some u => applyUnitToState st u
      | none => st
    else
      match priceMatches.getLast? with
      | none => st
      | some (idx, mchars) =>
        match parseMoney mchars with
        | none => st
        | some lineTotal =>
          processPricedLine st sanitizedLine unitLine idx lineTotal

/-- parseReceiptItems (src/lib/receipt-ocr.ts lines 122-236). -/
def parseReceiptItems (rawText : String) : List ParsedReceiptItem :=
  let lines := ((splitLines rawText.toList).map
      (fun l => jsTrim (collapseWs l))).filter
    (fun l => ¬ l.isEmpty ∧ ¬ shouldIgnoreLine l)
  (lines.foldl processLine ⟨[], none, none⟩).items

/-! ## AI response normalizer (src/unnamed/part_002)

The value coming back from `JSON.parse` is untrusted, so the embedding
works over a tree of arbitrary JS values (including `undefined`, which
property reads produce, and the non-finite numbers the code defends
against).  Reading a property of `null` or `undefined` throws, which the
`try` of parseReceiptDataFromContent catches; the normalizer therefore
runs in `Except Unit`. -/

/-- A JS number: finite value or one of the non-finite specials. -/
inductive JsNumber where
  | finite (q : ℚ)
  | nan
  | inf
  | neginf
deriving DecidableEq, Repr

/-- `Number.isFinite`. -/
def JsNumber.isFinite : JsNumber → Bool
  | .finite _ => true
  | _ => false

/-- An untrusted JS value as seen by the normalizer. -/
inductive JsValue where
  | jsundefined
  | null
  | bool (b : Bool)
  | num (n : JsNumber)
  | str (s : String)
  | arr (elems : List JsValue)
  | obj (fields : List (String × JsValue))
deriving Repr

/-- Property read `v[k]`: throws on null/undefined, yields the field of an
object (or undefined when absent), and undefined on every other value. -/
def jsGet (v : JsValue) (k : String) : Except Unit JsValue :=
  match v with
  | .jsundefined => .error ()
  | .null => .error ()
  | .obj fields =>
    .ok ((fields.find? (fun f => f.1 = k)).map Prod.snd |>.getD .jsundefined)
  | _ => .ok .jsundefined

/-- String.prototype.trim on a JS string. -/
def jsTrimStr (s : String) : String := String.mk (jsTrim s.toList)

/-- The normalized shape of one AI item (AiReceiptItem,
src/unnamed/part_002 lines 1-6). -/
structure AiReceiptItem where
  name : String
  qty : Option JsNumber
  price : Option JsNumber
  line_total : Option JsNumber
deriving DecidableEq, Repr

/-- The normalized response shape (AiReceiptData, lines 8-15). -/
structure AiReceiptData where
  items : List AiReceiptItem
  merchant : Option String
  purchase_datetime : Option String
  subtotal : Option JsNumber
  tax : Option JsNumber
  total : Option JsNumber
deriving DecidableEq, Repr

/-- The per-field coercion `typeof x === 'number' && Number.isFinite(x) ?
x : null`. -/
def finiteNumOrNull (v : JsValue) : Option JsNumber :=
  match v with
  | .num n => if n.isFinite then some n else none
  | _ => none

/-- The per-field coercion `typeof x === 'string' && x.trim().length > 0 ?
x.trim() : null`. -/
def nonEmptyTrimmedOrNull (v : JsValue) : Option String :=
  match v with
  | .str s => if (jsTrimStr s).length > 0 then some (jsTrimStr s) else none
  | _ => none

/-- normalizeAiItem (src/unnamed/part_002 lines 53-63); the four property
reads happen in source order and any of them throws when the array element
is null or undefined. -/
def normalizeAiItem (item : JsValue) : Except Unit AiReceiptItem :=
  match jsGet item "name" with
  | .error e => .error e
  | .ok nameV =>
    match jsGet item "qty" with
    | .error e => .error e
    | .ok qtyV =>
      match jsGet item "price" with
      | .error e => .error e
      | .ok priceV =>
        match jsGet item "line_total" with
        | .error e => .error e
        | .ok lineTotalV =>
          .ok ⟨(match nameV with | .str s => jsTrimStr s | _ => ""),
            finiteNumOrNull qtyV, finiteNumOrNull priceV,
            finiteNumOrNull lineTotalV⟩

/-- Array.prototype.map with exception propagation (the map runs in order
and an exception aborts it). -/
def mapExcept (f : JsValue → Except Unit AiReceiptItem) :
    List JsValue → Except Unit (List AiReceiptItem)
  | [] => .ok []
  | x :: xs =>
    match f x with
    | .error e => .error e
    | .ok y =>
      match mapExcept f xs with
      | .error e => .error e
      | .ok ys => .ok (y :: ys)

/-- The items part of normalizeAiReceiptData: map and filter when the
items field is an array (`Array.isArray`), empty list otherwise. -/
def normalizeItemsField (itemsV : JsValue) : Except Unit (List AiReceiptItem) :=
  match itemsV with
  | .arr elems =>
    match mapExcept normalizeAiItem elems with
    | .error e => .error e
    | .ok mapped => .ok (mapped.filter fun item => item.name.length > 0)
  | _ => .ok []

/-- normalizeAiReceiptData (src/unnamed/part_002 lines 65-88): map and
filter the items when the items field is an array, then read the scalar
fields, in source order. -/
def normalizeAiReceiptData (data : JsValue) : Except Unit AiReceiptData :=
  match jsGet data "items" with
  | .error e => .error e
  | .ok itemsV =>
    match normalizeItemsField itemsV with
    | .error e => .error e
    | .ok items =>
      match jsGet data "merchant" with
      | .error e => .error e
      | .ok merchantV =>
        match jsGet data "purchase_datetime" with
        | .error e => .error e
        | .ok datetimeV =>
          match jsGet data "subtotal" with
          | .error e => .error e
          | .ok subtotalV =>
            match jsGet data "tax" with
            | .error e => .error e
            | .ok taxV =>
              match jsGet data "total" with
              | .error e => .error e
              | .ok totalV =>
                .ok ⟨items, nonEmptyTrimmedOrNull merchantV,
                  nonEmptyTrimmedOrNull datetimeV, finiteNumOrNull subtotalV,
                  finiteNumOrNull taxV, finiteNumOrNull totalV⟩

/-- emptyReceiptData (src/unnamed/part_002 lines 90-99). -/
def emptyReceiptData : AiReceiptData :=
  ⟨[], none, none, none, none, none⟩

/-- parseReceiptDataFromContent (src/unnamed/part_002 lines 101-112).
`JSON.parse` is a JS builtin; it is passed in as an oracle `jsonParse`
returning none when it throws, and the theorems below hold for every
oracle.  An empty content string is falsy and short-circuits; any throw
from parsing or normalizing is caught and yields the empty result. -/
def parseReceiptDataFromContent (jsonParse : String → Option JsValue)
    (content : String) : AiReceiptData :=
  if content = "" then emptyReceiptData
  else
    match jsonParse content with
    | none => emptyReceiptData
    | some v =>
      match normalizeAiReceiptData v with
      | .ok d => d
      | .error _ => emptyReceiptData

/-- The property "a finite number or null" of the coerced numeric fields. -/
def finiteOrNull (o : Option JsNumber) : Prop :=
  o = none ∨ ∃ q, o = some (JsNumber.finite q)

/-- The canonical `YYYY-MM-DD HH:MM:SS` character list for the given
components, as produced by `formatDateTimeLocal` on a valid date. -/
def canonChars (y m d h mi s : ℕ) : List Char :=
  repNat y ++ '-' :: pad2 m ++ '-' :: pad2 d ++
    ' ' :: pad2 h ++ ':' :: pad2 mi ++ ':' :: pad2 s

/-! ## Theorems for the claims -/

/-- C2: isDuplicate (hasReceiptWithPurchaseDate) with the default 60000 ms
tolerance: for candidate datetime 2025-01-14 13:45:00 and total 11.30, a
stored receipt at 13:45:30 with total 11.30 matches (30 s within
tolerance, totals within one cent), while a sole stored receipt at
13:47:00 with total 11.30 does not (120 s exceeds the tolerance). -/
theorem c2_duplicate_tolerance :
    hasReceiptWithPurchaseDate "2025-01-14 13:45:00" (some (113 / 10)) 60000
      [⟨"2025-01-14 13:45:30", some (113 / 10), none, none⟩] = true ∧
    hasReceiptWithPurchaseDate "2025-01-14 13:45:00" (some (113 / 10)) 60000
      [⟨"2025-01-14 13:47:00", some (113 / 10), none, none⟩] = false := by
  have hA : parseFlexibleDateTime false 0 "2025-01-14 13:45:00".toList =
      some ⟨2025, 1, 14, 13, 45, 0⟩ := by decide
  have hB : parseFlexibleDateTime false 0 "2025-01-14 13:45:30".toList =
      some ⟨2025, 1, 14, 13, 45, 30⟩ := by decide
  have hC : parseFlexibleDateTime false 0 "2025-01-14 13:47:00".toList =
      some ⟨2025, 1, 14, 13, 47, 0⟩ := by decide
  have tA : JsDate.getTime ⟨2025, 1, 14, 13, 45, 0⟩ = 1736862300000 := by decide
  have tB : JsDate.getTime ⟨2025, 1, 14, 13, 45, 30⟩ = 1736862330000 := by decide
  have tC : JsDate.getTime ⟨2025, 1, 14, 13, 47, 0⟩ = 1736862420000 := by decide
  constructor <;>
    · simp +decide [hasReceiptWithPurchaseDate, rowTotal, totalMatches,
        hA, hB, hC, tA, tB, tC]

/-- C4: a dangling quantity-at-price line before any item is buffered as
pendingUnit and backfills the next emitted item, so the two-line input
yields the single fully populated Milk item. -/
theorem c4_pending_unit_backfill :
    parseReceiptItems "2 @ $1.50\nMilk 2L          3.00\n" =
      [⟨"Milk 2L", some 2, some (3 / 2), some 3⟩] := by
  simp +decide [parseReceiptItems, processLine, processPricedLine,
    pricedDescription, emitFields, applyUnitToState, splitLines, splitLines.go,
    collapseWs, collapseAfterWs, jsTrim, shouldIgnoreLine,
    IGNORE_LINE_KEYWORDS, hasSub, leadEq, toLowerChar,
    looksLikeCategoryHeader, looksLikeCodeOnly, parseUnitLine, searchPair,
    weightMatchAt, unitMatchAt, decimalNumAt, unitPriceTail, priceNumAt,
    priceMatchAt, priceMatchAll, priceScan, isUnitOnlyLine, stripUnitChars,
    removeAllKgLb, removeAllSlashKgLb, stripLeadingCodes, slcParen,
    slcLongCode, stripTaxCodeSuffix, TAX_CODE_SUFFIXES, ciEq, qtyMatch,
    collapseMulti, collapseMultiTail, removeUnitFragment, fragGo,
    fragMatchAt, hasLetters, isAsciiLetter, isDigitChar, isWsChar,
    isWordChar, leadEqCI, parseMoney, jsParseFloat, replaceFirstChar,
    parseNatDigits, digitVal, backfillFromUnit, updateLast, round2]
  norm_num

/-- C1 counterexample: on the single weighted line the parser returns no
item at all (the claim promises one item with qty 0.78, unitPrice 2.16 and
lineTotal 1.69): after the unit fragment is removed the description has no
letters, so the line is skipped. -/
theorem c1_counterexample :
    ¬ ∃ d : String,
      parseReceiptItems "0.78 kg @ 2.16/kg          1.69" =
        [⟨d, some (78 / 100), some (216 / 100), some (169 / 100)⟩] := by
  intro h
  obtain ⟨d, hd⟩ := h
  have : parseReceiptItems "0.78 kg @ 2.16/kg          1.69" = [] := by
    simp +decide [parseReceiptItems, processLine, processPricedLine,
    pricedDescription, emitFields, applyUnitToState, splitLines, splitLines.go,
      collapseWs, collapseAfterWs, jsTrim, shouldIgnoreLine,
      IGNORE_LINE_KEYWORDS, hasSub, leadEq, toLowerChar,
      looksLikeCategoryHeader, looksLikeCodeOnly, parseUnitLine, searchPair,
      weightMatchAt, unitMatchAt, decimalNumAt, unitPriceTail, priceNumAt,
      priceMatchAt, priceMatchAll, priceScan, isUnitOnlyLine, stripUnitChars,
      removeAllKgLb, removeAllSlashKgLb, stripLeadingCodes, slcParen,
      slcLongCode, stripTaxCodeSuffix, TAX_CODE_SUFFIXES, ciEq, qtyMatch,
      collapseMulti, collapseMultiTail, removeUnitFragment, fragGo,
      fragMatchAt, hasLetters, isAsciiLetter, isDigitChar, isWsChar,
      isWordChar, leadEqCI, parseMoney, jsParseFloat, replaceFirstChar,
      parseNatDigits, digitVal, backfillFromUnit, updateLast, round2]
  rw [this] at hd
  exact List.cons_ne_nil _ _ hd.symm

/-- C1 amended: the single weighted line produces no item, because the
whole text before the last amount is the unit fragment, whose removal
leaves a letterless description; with a preceding name-only line the last
amount 1.69 does become the lineTotal of the emitted item (the earlier
numbers 0.78 and 2.16 are not taken as the total), but the weight fragment
of the priced line is consumed without populating qty or unitPrice. -/
theorem c1_amended_weighted_line :
    parseReceiptItems "0.78 kg @ 2.16/kg          1.69" = [] ∧
    parseReceiptItems "BANANAS\n0.78 kg @ 2.16/kg          1.69" =
      [⟨"BANANAS", none, none, some (169 / 100)⟩] := by
  constructor <;>
    · simp +decide [parseReceiptItems, processLine, processPricedLine,
    pricedDescription, emitFields, applyUnitToState, splitLines, splitLines.go,
        collapseWs, collapseAfterWs, jsTrim, shouldIgnoreLine,
        IGNORE_LINE_KEYWORDS, hasSub, leadEq, toLowerChar,
        looksLikeCategoryHeader, looksLikeCodeOnly, parseUnitLine, searchPair,
        weightMatchAt, unitMatchAt, decimalNumAt, unitPriceTail, priceNumAt,
        priceMatchAt, priceMatchAll, priceScan, isUnitOnlyLine, stripUnitChars,
        removeAllKgLb, removeAllSlashKgLb, stripLeadingCodes, slcParen,
        slcLongCode, stripTaxCodeSuffix, TAX_CODE_SUFFIXES, ciEq, qtyMatch,
        collapseMulti, collapseMultiTail, removeUnitFragment, fragGo,
        fragMatchAt, hasLetters, isAsciiLetter, isDigitChar, isWsChar,
        isWordChar, leadEqCI, parseMoney, jsParseFloat, replaceFirstChar,
        parseNatDigits, digitVal, backfillFromUnit, updateLast, round2]
      try norm_num

/-- C3 counterexample: the input 2025-01-00 matches the ymd pattern with
day component 00, yet the normalizer does not return null: the JS Date
constructor silently wraps day 0 to the last day of the previous month,
and the NaN check does not reject it. -/
theorem c3_counterexample :
    (searchMatch matchYmdAt "2025-01-00".toList).map DateCaps.c3 =
      some ['0', '0'] ∧
    normalizeReceiptDateTime "2025-01-00" = some "2024-12-31 00:00:00" := by
  constructor <;> decide

/-- C3 amended: a matched date pattern with out-of-range calendar
components is not rejected; the constructed date is silently normalized
into the adjacent month (day 0 becomes the previous month's last day,
February 29 of a non-leap year becomes March 1, month 13 becomes January
of the next year).  Only a NaN time value (out of the ECMAScript range)
would be rejected. -/
theorem c3_amended_wrapping :
    normalizeReceiptDateTime "2025-01-00" = some "2024-12-31 00:00:00" ∧
    normalizeReceiptDateTime "2023-02-29" = some "2023-03-01 00:00:00" ∧
    normalizeReceiptDateTime "2025-13-05" = some "2026-01-05 00:00:00" := by
  refine ⟨by decide, by decide, by decide⟩

/-- C8: dmy day/month disambiguation.  The concrete input 13/02/2025 is
parsed as day 13, month 2 (the ymd pattern tried first does not match it);
in general a first component above 12 with a second component at most 12
is taken as the day, and when both are at most 12 the parse defaults to
day-first. -/
theorem c8_dmy_disambiguation :
    normalizeReceiptDateTime "13/02/2025" = some "2025-02-13 00:00:00" ∧
    (∀ first second : ℤ, first > 12 → second ≤ 12 →
      dmyDayMonth first second = (first, second - 1)) ∧
    (∀ first second : ℤ, first ≤ 12 → second ≤ 12 →
      dmyDayMonth first second = (first, second - 1)) := by
  refine ⟨by decide, ?_, ?_⟩
  · intro f s hf hs
    simp [dmyDayMonth, hf, hs]
  · intro f s hf hs
    have h1 : ¬ (f > 12 ∧ s ≤ 12) := by omega
    have h2 : ¬ (s > 12 ∧ f ≤ 12) := by omega
    simp [dmyDayMonth, h1, h2]

/-- Witness for C8 at the concrete components 13/02 (day 13 forced) and
05/06 (ambiguous, day-first). -/
theorem c8_dmy_disambiguation_witness :
    dmyDayMonth 13 2 = (13, 1) ∧ dmyDayMonth 5 6 = (5, 5) :=
  ⟨c8_dmy_disambiguation.2.1 13 2 (by norm_num) (by norm_num),
   c8_dmy_disambiguation.2.2 5 6 (by norm_num) (by norm_num)⟩

/-- C7: the preferCurrentYear short-circuit accepts an input only when the
anchored two-digit-year pattern matches and the two-digit year equals the
current year mod 100, in which case the date is built from the year
2000 + YY; the input 14/01/25 with current year 2025 fails the guard (14
is not 25) and resolves through the day-first dmy path to
2025-01-14 00:00:00. -/
theorem c7_prefer_current_year :
    (∀ (currentYear : ℤ) (cs : List Char) (dt : JsDate),
      preferCurrentYearBranch currentYear cs = some dt →
      ∃ caps, matchScanAnchored cs = some caps ∧
        (parseNatDigits caps.c1 : ℤ) = currentYear % 100 ∧
        preferCurrentYearBranch currentYear cs =
          buildDate (2000 + (parseNatDigits caps.c1 : ℤ))
            ((parseNatDigits caps.c2 : ℤ) - 1) (parseNatDigits caps.c3 : ℤ)
            (applyMeridiem caps.meridiem (capToInt caps.hour))
            (capToInt caps.minute) (capToInt caps.second)) ∧
    normalizeReceiptDateTimeFromScan 2025 "14/01/25" =
      some "2025-01-14 00:00:00" := by
  constructor
  · intro cy cs dt h
    unfold preferCurrentYearBranch at h ⊢
    cases hm : matchScanAnchored cs with
    | none => simp [hm] at h
    | some caps =>
      simp only [hm] at h ⊢
      by_cases hy : (parseNatDigits caps.c1 : ℤ) = cy % 100
      · exact ⟨caps, rfl, hy, by simp [hy]⟩
      · simp [hy] at h
  · decide

/-- Witness for C7: the branch fires on 25/01/14 with current year 2025. -/
theorem c7_prefer_current_year_witness :
    ∃ caps, matchScanAnchored "25/01/14".toList = some caps ∧
      (parseNatDigits caps.c1 : ℤ) = (2025 : ℤ) % 100 ∧
      preferCurrentYearBranch 2025 "25/01/14".toList =
        buildDate (2000 + (parseNatDigits caps.c1 : ℤ))
          ((parseNatDigits caps.c2 : ℤ) - 1) (parseNatDigits caps.c3 : ℤ)
          (applyMeridiem caps.meridiem (capToInt caps.hour))
          (capToInt caps.minute) (capToInt caps.second) :=
  c7_prefer_current_year.1 2025 "25/01/14".toList ⟨2025, 1, 14, 0, 0, 0⟩
    (by decide)

/-- Two-decimal rounding is idempotent: the rounded value is an integer
number of hundredths, and rounding fixes those. -/
theorem round2_idem (q : ℚ) : round2 (round2 q) = round2 q := by
  unfold round2
  set z := ⌊q * 100 + 1 / 2⌋ with hz
  have h1 : ((z : ℚ) / 100) * 100 + 1 / 2 = 1 / 2 + (z : ℚ) := by ring
  rw [h1, Int.floor_add_int]
  norm_num

/-- C5 counterexample: reconcile does not leave a present unitPrice
untouched: the value 1.125 is rewritten to its two-decimal rounding 1.13
even though no slot was null. -/
theorem c5_counterexample :
    reconcile none (some (9 / 8)) none = (none, some (113 / 100), none) ∧
    (113 / 100 : ℚ) ≠ 9 / 8 := by
  constructor
  · unfold reconcile
    norm_num [round2]
  · norm_num

/-- C5 amended: reconcile fills only null slots of qty and lineTotal and
never overwrites them (qty passes through untouched, a present lineTotal
is returned as given); a present unitPrice is re-rounded to two decimals
(so a value already in cents is unchanged); the two claimed instances
hold, and applying reconcile to its own output is a no-op. -/
theorem c5_amended_reconcile :
    reconcile (some 2) none (some 5) = (some 2, some (5 / 2), some 5) ∧
    reconcile none none (some 5) = (none, none, some 5) ∧
    (∀ q u t : Option ℚ, (reconcile q u t).1 = q) ∧
    (∀ q u t : Option ℚ, ∀ v, t = some v → (reconcile q u t).2.2 = some v) ∧
    (∀ q u t : Option ℚ, ∀ v, u = some v →
      (reconcile q u t).2.1 = some (round2 v)) ∧
    (∀ q u t : Option ℚ,
      reconcile (reconcile q u t).1 (reconcile q u t).2.1
        (reconcile q u t).2.2 = reconcile q u t) := by
  refine ⟨?_, ?_, ?_, ?_, ?_, ?_⟩
  · unfold reconcile
    norm_num [round2]
  · unfold reconcile
    norm_num
  · intro q u t; rfl
  · intro q u t v hv
    subst hv
    unfold reconcile
    cases q <;> cases u <;> simp
  · intro q u t v hv
    subst hv
    unfold reconcile
    cases q <;> cases t <;> simp
  · intro q u t
    unfold reconcile
    rcases q with _ | qv <;> rcases u with _ | uv <;> rcases t with _ | tv <;>
      simp [round2_idem]
    by_cases hq : qv = 0
    · simp [hq]
    · simp [hq, round2_idem]

/-- Witness for C5 amended: the universally quantified parts evaluated at
concrete triples. -/
theorem c5_amended_reconcile_witness :
    (reconcile (some 3) (some (7 / 4)) none).1 = some 3 ∧
    (reconcile (some 3) (some (7 / 4)) (some 5)).2.2 = some 5 ∧
    (reconcile (some 3) (some (7 / 4)) (some 5)).2.1 =
      some (round2 (7 / 4)) :=
  ⟨c5_amended_reconcile.2.2.1 (some 3) (some (7 / 4)) none,
   c5_amended_reconcile.2.2.2.1 (some 3) (some (7 / 4)) (some 5) 5 rfl,
   c5_amended_reconcile.2.2.2.2.1 (some 3) (some (7 / 4)) (some 5) (7 / 4) rfl⟩

/-- Every value the numeric coercion returns is finite or null. -/
theorem finiteNumOrNull_spec (v : JsValue) : finiteOrNull (finiteNumOrNull v) := by
  cases v <;> simp [finiteNumOrNull, finiteOrNull]
  case num n => cases n <;> simp [JsNumber.isFinite]

theorem normalizeAiItem_spec (x : JsValue) (it : AiReceiptItem)
    (h : normalizeAiItem x = .ok it) :
    (∃ s0, it.name = jsTrimStr s0) ∧ finiteOrNull it.qty ∧
      finiteOrNull it.price ∧ finiteOrNull it.line_total := by
  unfold normalizeAiItem at h
  cases h1 : jsGet x "name" <;> rw [h1] at h
  case error => simp at h
  cases h2 : jsGet x "qty" <;> rw [h2] at h
  case error => simp at h
  cases h3 : jsGet x "price" <;> rw [h3] at h
  case error => simp at h
  cases h4 : jsGet x "line_total" <;> rw [h4] at h
  case error => simp at h
  simp only [Except.ok.injEq] at h
  subst h
  refine ⟨?_, finiteNumOrNull_spec _, finiteNumOrNull_spec _, finiteNumOrNull_spec _⟩
  case ok.ok.ok.ok a _ _ _ =>
    cases a <;> simp
    all_goals exact ⟨"", rfl⟩

theorem mapExcept_mem (f : JsValue → Except Unit AiReceiptItem)
    (xs : List JsValue) (ys : List AiReceiptItem)
    (h : mapExcept f xs = .ok ys) :
    ∀ y ∈ ys, ∃ x, f x = .ok y := by
  induction xs generalizing ys with
  | nil =>
    unfold mapExcept at h
    simp only [Except.ok.injEq] at h
    subst h; simp
  | cons a t ih =>
    unfold mapExcept at h
    cases hf : f a <;> rw [hf] at h
    case error => simp at h
    cases hm : mapExcept f t <;> rw [hm] at h
    case error => simp at h
    simp only [Except.ok.injEq] at h
    subst h
    intro y hy
    rcases List.mem_cons.mp hy with hy | hy
    · exact ⟨a, by rw [hf, hy]⟩
    · exact ih _ hm y hy

theorem normalizeAiReceiptData_items (v : JsValue) (d : AiReceiptData)
    (h : normalizeAiReceiptData v = .ok d) :
    ∀ it ∈ d.items, it.name.length > 0 ∧
      (∃ s0, it.name = jsTrimStr s0) ∧ finiteOrNull it.qty ∧
        finiteOrNull it.price ∧ finiteOrNull it.line_total := by
  unfold normalizeAiReceiptData at h
  cases h1 : jsGet v "items" <;> rw [h1] at h <;> dsimp only at h
  case error => simp at h
  case ok itemsV =>
  cases h2 : normalizeItemsField itemsV <;> rw [h2] at h <;> dsimp only at h
  case error => simp at h
  case ok items =>
  cases h3 : jsGet v "merchant" <;> rw [h3] at h <;> dsimp only at h
  case error => simp at h
  cases h4 : jsGet v "purchase_datetime" <;> rw [h4] at h <;> dsimp only at h
  case error => simp at h
  cases h5 : jsGet v "subtotal" <;> rw [h5] at h <;> dsimp only at h
  case error => simp at h
  cases h6 : jsGet v "tax" <;> rw [h6] at h <;> dsimp only at h
  case error => simp at h
  cases h7 : jsGet v "total" <;> rw [h7] at h <;> dsimp only at h
  case error => simp at h
  simp only [Except.ok.injEq] at h
  subst h
  intro it hit
  simp only at hit
  unfold normalizeItemsField at h2
  cases itemsV <;> simp only [Except.ok.injEq] at h2
  case arr elems =>
    cases hm : mapExcept normalizeAiItem elems <;> rw [hm] at h2
    case error => simp at h2
    simp only [Except.ok.injEq] at h2
    subst h2
    have hmem := List.mem_filter.mp hit
    have hx := mapExcept_mem _ _ _ hm it hmem.1
    obtain ⟨x, hx⟩ := hx
    have := normalizeAiItem_spec x it hx
    exact ⟨by simpa using hmem.2, this⟩
  all_goals
    subst h2; simp at hit

/-- C9: the AI-response normalizer is total and safe: for every parse
oracle and every content string, a parse failure yields the empty
all-null result, and every item kept in the output has a non-empty
(trimmed) name while each numeric field is a finite number or null. -/
theorem c9_ai_normalizer_safe :
    ∀ (jsonParse : String → Option JsValue) (content : String),
      (jsonParse content = none →
        parseReceiptDataFromContent jsonParse content = emptyReceiptData) ∧
      ∀ it ∈ (parseReceiptDataFromContent jsonParse content).items,
        it.name ≠ "" ∧ (∃ s0, it.name = jsTrimStr s0) ∧
          finiteOrNull it.qty ∧ finiteOrNull it.price ∧
          finiteOrNull it.line_total := by
  intro jp content
  constructor
  · intro hnone
    unfold parseReceiptDataFromContent
    by_cases hc : content = ""
    · simp [hc]
    · simp [hc, hnone]
  · intro it hit
    unfold parseReceiptDataFromContent at hit
    by_cases hc : content = ""
    · simp [hc, emptyReceiptData] at hit
    · rw [if_neg hc] at hit
      cases hp : jp content with
      | none => rw [hp] at hit; dsimp only at hit; simp [emptyReceiptData] at hit
      | some v =>
        rw [hp] at hit; dsimp only at hit
        cases hn : normalizeAiReceiptData v with
        | error e =>
          rw [hn] at hit; dsimp only at hit
          simp [emptyReceiptData] at hit
        | ok d =>
          rw [hn] at hit; dsimp only at hit
          have hall := normalizeAiReceiptData_items v d hn it hit
          refine ⟨?_, hall.2⟩
          have h1 : it.name.length > 0 := hall.1
          intro he
          rw [he] at h1
          simp at h1

/-- Witness for C9: a failing oracle yields the empty result, and a
concrete response with one well-formed item satisfies the item
invariants. -/
theorem c9_ai_normalizer_safe_witness :
    (parseReceiptDataFromContent (fun _ => none) "x" = emptyReceiptData) ∧
    ((⟨"Milk", some (.finite 2), none, none⟩ : AiReceiptItem).name ≠ "" ∧
      (∃ s0, (⟨"Milk", some (.finite 2), none, none⟩ : AiReceiptItem).name =
        jsTrimStr s0) ∧
      finiteOrNull (some (.finite 2)) ∧ finiteOrNull none ∧
      finiteOrNull none) :=
  ⟨(c9_ai_normalizer_safe (fun _ => none) "x").1 rfl,
   (c9_ai_normalizer_safe (fun _ => some (JsValue.obj [("items",
       JsValue.arr [JsValue.obj [("name", JsValue.str " Milk "),
         ("qty", JsValue.num (JsNumber.finite 2)), ("price", JsValue.null),
         ("line_total", JsValue.num JsNumber.nan)]])])) "x").2
     ⟨"Milk", some (.finite 2), none, none⟩ (by decide)⟩

/-- Backfilling qty/unitPrice never changes the lineTotal field. -/
theorem backfillFromUnit_lineTotal (u : UnitLine) (it : ParsedReceiptItem) :
    (backfillFromUnit u it).lineTotal = it.lineTotal := by
  unfold backfillFromUnit
  dsimp only
  split <;> split <;> rfl

theorem updateLast_inv (P : α → Prop) (f : α → α)
    (hf : ∀ a, P a → P (f a)) :
    ∀ xs : List α, (∀ a ∈ xs, P a) → ∀ b ∈ updateLast f xs, P b := by
  intro xs
  induction xs with
  | nil => intro _ b hb; simp [updateLast] at hb
  | cons x t ih =>
    intro h b hb
    cases t with
    | nil =>
      simp [updateLast] at hb
      subst hb
      exact hf x (h x (by simp))
    | cons y s =>
      rw [show updateLast f (x :: y :: s) = x :: updateLast f (y :: s) from rfl]
        at hb
      rcases List.mem_cons.mp hb with hb | hb
      · subst hb; exact h b (by simp)
      · exact ih (fun a ha => h a (List.mem_cons_of_mem _ ha)) b hb

theorem applyUnitToState_items (st : ParseState) (u : UnitLine) :
    (applyUnitToState st u).items = st.items ∨
    (applyUnitToState st u).items = updateLast (backfillFromUnit u) st.items := by
  unfold applyUnitToState
  split
  · right; rfl
  · left; rfl

theorem processPricedLine_items (st : ParseState) (sanitizedLine : List Char)
    (unitLine : Option UnitLine) (idx : ℕ) (lineTotal : ℚ) :
    (processPricedLine st sanitizedLine unitLine idx lineTotal).items = st.items ∨
    (∃ it : ParsedReceiptItem, it.lineTotal = some lineTotal ∧
      (processPricedLine st sanitizedLine unitLine idx lineTotal).items =
        st.items ++ [it]) := by
  unfold processPricedLine
  dsimp only
  split
  · left; rfl
  · right; exact ⟨_, rfl, rfl⟩

theorem processLine_inv (P : ParsedReceiptItem → Prop)
    (hP : ∀ u it, P it → P (backfillFromUnit u it))
    (hT : ∀ it : ParsedReceiptItem, (∃ v, it.lineTotal = some v) → P it)
    (st : ParseState) (line : List Char)
    (h : ∀ it ∈ st.items, P it) :
    ∀ it ∈ (processLine st line).items, P it := by
  unfold processLine
  split
  · exact h
  · dsimp only
    split
    · split
      next u heq =>
        rcases applyUnitToState_items st u with hs | hs <;> rw [hs]
        · exact h
        · exact updateLast_inv P _ (fun a ha => hP u a ha) st.items h
      next heq =>
        split
        · exact h
        · exact h
    · split
      · split
        next u heq =>
          rcases applyUnitToState_items st u with hs | hs <;> rw [hs]
          · exact h
          · exact updateLast_inv P _ (fun a ha => hP u a ha) st.items h
        next heq => exact h
      · split
        next heq => exact h
        next idx mchars heq =>
          split
          next heq2 => exact h
          next lineTotal heq2 =>
            rcases processPricedLine_items st
                (List.filter (fun c => decide (c ≠ '$')) line)
                (parseUnitLine (List.filter (fun c => decide (c ≠ '$')) line))
                idx lineTotal with hs | ⟨it0, hit0, hs⟩ <;> rw [hs]
            · exact h
            · intro it hit
              rcases List.mem_append.mp hit with hm | hm
              · exact h it hm
              · rw [List.mem_singleton.mp hm]
                exact hT it0 ⟨lineTotal, hit0⟩

theorem foldl_processLine_inv (P : ParsedReceiptItem → Prop)
    (hP : ∀ u it, P it → P (backfillFromUnit u it))
    (hT : ∀ it : ParsedReceiptItem, (∃ v, it.lineTotal = some v) → P it) :
    ∀ (lines : List (List Char)) (st : ParseState),
      (∀ it ∈ st.items, P it) →
      ∀ it ∈ (lines.foldl processLine st).items, P it := by
  intro lines
  induction lines with
  | nil => intro st h; exact h
  | cons l t ih =>
    intro st h
    exact ih (processLine st l) (processLine_inv P hP hT st l h)

/-- parseUnitLine reduced to its two searches when both fail. -/
theorem parseUnitLine_none_eval (cs : List Char)
    (hW : searchPair weightMatchAt cs = none)
    (hU : searchPair unitMatchAt cs = none) :
    parseUnitLine cs = none := by
  unfold parseUnitLine
  rw [hW, hU]

/-- parseUnitLine reduced to its two searches when the count form hits. -/
theorem parseUnitLine_count_eval (cs d p : List Char) (q : ℚ) (up : ℚ)
    (hW : searchPair weightMatchAt cs = none)
    (hU : searchPair unitMatchAt cs = some (d, p))
    (hq : (parseNatDigits d : ℚ) = q)
    (hp : parseMoney p = some up) :
    parseUnitLine cs = some ⟨some q, some up⟩ := by
  unfold parseUnitLine
  rw [hW, hU]
  dsimp only
  rw [hq, hp]

/-- parseReceiptItems on a text whose line pipeline yields one line. -/
theorem parseReceiptItems_single (raw : String) (L : List Char)
    (hLines : ((splitLines raw.toList).map
        (fun l => jsTrim (collapseWs l))).filter
      (fun l => ¬ l.isEmpty ∧ ¬ shouldIgnoreLine l) = [L]) :
    parseReceiptItems raw = (processLine ⟨[], none, none⟩ L).items := by
  unfold parseReceiptItems
  rw [hLines]
  rfl

/-- processLine reduced to the priced-line tail, given the values of each
branching scrutinee. -/
theorem processLine_priced_eval (st : ParseState) (line : List Char)
    (uOpt : Option UnitLine) (idx : ℕ) (mtext : List Char) (total : ℚ)
    (hHdr : ¬ (looksLikeCategoryHeader line ∨ looksLikeCodeOnly line))
    (hSan : line.filter (fun c => c ≠ '$') = line)
    (hUnit : parseUnitLine line = uOpt)
    (hPrices : (priceMatchAll line).isEmpty = false)
    (hNotUO : isUnitOnlyLine line uOpt = false)
    (hLast : (priceMatchAll line).getLast? = some (idx, mtext))
    (hMoney : parseMoney mtext = some total) :
    processLine st line = processPricedLine st line uOpt idx total := by
  unfold processLine
  rw [if_neg hHdr]
  simp only [hSan, hUnit, hPrices, hNotUO, hLast, hMoney,
    Bool.false_eq_true, if_false]

/-- processPricedLine reduced to the emitted item, given the description
candidate and the emitFields value. -/
theorem processPricedLine_eval (st : ParseState) (line : List Char)
    (uOpt : Option UnitLine) (idx : ℕ) (total : ℚ)
    (dp5 desc : List Char) (q up : Option ℚ) (pu : Option UnitLine)
    (hDp : pricedDescription st line uOpt idx = dp5)
    (hLet : hasLetters dp5 = true)
    (hEmit : emitFields st dp5 total = (desc, q, up, pu)) :
    processPricedLine st line uOpt idx total =
      ⟨st.items ++ [⟨String.mk desc, q, up, some total⟩], none, pu⟩ := by
  unfold processPricedLine
  rw [hDp, if_neg (by simp [hLet]), hEmit]

/-- emitFields when the description is exactly one count-form inline unit
fragment and no pendingUnit is buffered. -/
theorem emitFields_inline_eval (st : ParseState) (dp5 d p : List Char)
    (total : ℚ) (q up : ℚ)
    (hW : searchPair weightMatchAt dp5 = none)
    (hU : searchPair unitMatchAt dp5 = some (d, p))
    (hq : (parseNatDigits d : ℚ) = q)
    (hp : parseMoney p = some up)
    (hRm : jsTrim (removeUnitFragment dp5) = [])
    (hPend : st.pendingUnit = none) :
    emitFields st dp5 total = ([], some q, some up, none) := by
  have hInline : parseUnitLine dp5 = some ⟨some q, some up⟩ :=
    parseUnitLine_count_eval dp5 d p q up hW hU hq hp
  unfold emitFields
  rw [hInline, hRm, hPend]
  have h1 : jsTrim ([] : List Char) = [] := by decide
  have h2 : qtyMatch ([] : List Char) = none := by decide
  simp only [h1, h2]

/-- parseMoney on the literal 1.50. -/
theorem money150 : parseMoney ['1', '.', '5', '0'] = some (3 / 2) := by
  simp +decide [parseMoney, replaceFirstChar, jsParseFloat, parseNatDigits,
    digitVal, isDigitChar, List.takeWhile, List.dropWhile, List.foldl]
  norm_num

/-- parseMoney on the literal 2.50. -/
theorem money250 : parseMoney ['2', '.', '5', '0'] = some (5 / 2) := by
  simp +decide [parseMoney, replaceFirstChar, jsParseFloat, parseNatDigits,
    digitVal, isDigitChar, List.takeWhile, List.dropWhile, List.foldl]
  norm_num

/-- parseMoney on the literal 9.00. -/
theorem money900 : parseMoney ['9', '.', '0', '0'] = some 9 := by
  simp +decide [parseMoney, replaceFirstChar, jsParseFloat, parseNatDigits,
    digitVal, isDigitChar, List.takeWhile, List.dropWhile, List.foldl]

/-- parseMoney on the literal 2.00. -/
theorem money200 : parseMoney ['2', '.', '0', '0'] = some 2 := by
  simp +decide [parseMoney, replaceFirstChar, jsParseFloat, parseNatDigits,
    digitVal, isDigitChar, List.takeWhile, List.dropWhile, List.foldl]

/-- The description candidate of the two-fragment line: the first unit
fragment is removed, the second stays. -/
theorem dp_eval_two_fragments (u : UnitLine) :
    pricedDescription ⟨[], none, none⟩
      ("2@ 1.50/kg 3@ 2.50/each 9.00".toList) (some u) 24 =
    "3@ 2.50/each".toList := by
  have t1 : jsTrim (List.take 24 ("2@ 1.50/kg 3@ 2.50/each 9.00".toList)) =
      "2@ 1.50/kg 3@ 2.50/each".toList := by decide
  have t2 : stripLeadingCodes ("2@ 1.50/kg 3@ 2.50/each".toList) =
      "2@ 1.50/kg 3@ 2.50/each".toList := by decide
  have t3 : stripTaxCodeSuffix ("2@ 1.50/kg 3@ 2.50/each".toList) =
      "2@ 1.50/kg 3@ 2.50/each".toList := by decide
  have t4 : removeUnitFragment ("2@ 1.50/kg 3@ 2.50/each".toList) =
      " 3@ 2.50/each".toList := by decide
  have t5 : hasLetters (" 3@ 2.50/each".toList) = true := by decide
  have t6 : jsTrim (collapseMulti (" 3@ 2.50/each".toList)) =
      "3@ 2.50/each".toList := by
    have hc : collapseMulti (" 3@ 2.50/each".toList) =
        " 3@ 2.50/each".toList := by
      simp +decide [collapseMulti, collapseMultiTail]
    rw [hc]
    decide
  unfold pricedDescription
  dsimp only [Option.isSome]
  rw [t1, t2, t3]
  rw [if_pos rfl]
  rw [t4]
  rw [if_neg (fun h => h t5)]
  exact t6

/-- The description candidate of the Milk line. -/
theorem dp_eval_milk :
    pricedDescription ⟨[], none, none⟩ ("Milk 2.00".toList) none 5 =
    "Milk".toList := by
  have t1 : jsTrim (List.take 5 ("Milk 2.00".toList)) = "Milk".toList := by
    decide
  have t2 : stripLeadingCodes ("Milk".toList) = "Milk".toList := by decide
  have t3 : stripTaxCodeSuffix ("Milk".toList) = "Milk".toList := by decide
  have t5 : hasLetters ("Milk".toList) = true := by decide
  have t6 : jsTrim (collapseMulti ("Milk".toList)) = "Milk".toList := by
    have hc : collapseMulti ("Milk".toList) = "Milk".toList := by
      simp +decide [collapseMulti, collapseMultiTail]
    rw [hc]
    decide
  unfold pricedDescription
  dsimp only [Option.isSome]
  rw [t1, t2, t3]
  rw [if_neg (show ¬ (false = true) from by decide)]
  rw [if_neg (fun h => h t5)]
  exact t6

/-- Full evaluation of the two-fragment line: the emitted item has an
empty description. -/
theorem parse_eval_two_fragments :
    parseReceiptItems "2@ 1.50/kg 3@ 2.50/each 9.00" =
      [⟨"", some 3, some (5 / 2), some 9⟩] := by
  have hUnit : parseUnitLine ("2@ 1.50/kg 3@ 2.50/each 9.00".toList) =
      some ⟨some 2, some (3 / 2)⟩ :=
    parseUnitLine_count_eval _ ['2'] ['1', '.', '5', '0'] 2 (3 / 2)
      (by decide) (by decide)
      (by norm_num [show parseNatDigits ['2'] = 2 from by decide]) money150
  have hEmit : emitFields ⟨[], none, none⟩
      ("3@ 2.50/each".toList) 9 = ([], some 3, some (5 / 2), none) :=
    emitFields_inline_eval _ _ ['3'] ['2', '.', '5', '0'] 9 3 (5 / 2)
      (by decide) (by decide)
      (by norm_num [show parseNatDigits ['3'] = 3 from by decide]) money250
      (by decide) rfl
  rw [parseReceiptItems_single _ ("2@ 1.50/kg 3@ 2.50/each 9.00".toList)
    (by decide)]
  rw [processLine_priced_eval ⟨[], none, none⟩ _
    (some ⟨some 2, some (3 / 2)⟩) 24 ['9', '.', '0', '0'] 9
    (by decide) (by decide) hUnit (by decide) (by decide) (by decide) money900]
  rw [processPricedLine_eval ⟨[], none, none⟩ _ _ 24 9
    ("3@ 2.50/each".toList) [] (some 3) (some (5 / 2)) none
    (dp_eval_two_fragments _) (by decide) hEmit]
  rfl

/-- Full evaluation of the one-line Milk receipt. -/
theorem parse_eval_milk :
    parseReceiptItems "Milk 2.00" = [⟨"Milk", none, none, some 2⟩] := by
  have hUnit : parseUnitLine ("Milk 2.00".toList) = none :=
    parseUnitLine_none_eval _ (by decide) (by decide)
  rw [parseReceiptItems_single _ ("Milk 2.00".toList) (by decide)]
  rw [processLine_priced_eval ⟨[], none, none⟩ _ none 5 ['2', '.', '0', '0'] 2
    (by decide) (by decide) hUnit (by decide) (by decide) (by decide) money200]
  rw [processPricedLine_eval ⟨[], none, none⟩ _ none 5 2
    ("Milk".toList) ("Milk".toList) none none none
    dp_eval_milk (by decide) (by decide)]
  rfl

/-- C10 amended: every item returned by parseReceiptText has a non-null
lineTotal (set from the last currency-amount match of its line), hence at
least one of unitPrice/lineTotal is non-null; qty and unitPrice may each
be null.  The description-letters part of the claim is refuted by the
counterexample: the description can be letterless when an inline unit
fragment swallows the letters after the letters check. -/
theorem c10_amended_line_total :
    ∀ (raw : String), ∀ it ∈ parseReceiptItems raw,
      it.lineTotal ≠ none ∧
        (it.unitPrice ≠ none ∨ it.lineTotal ≠ none) := by
  intro raw it hit
  have hmain : it.lineTotal ≠ none := by
    refine foldl_processLine_inv (fun x => x.lineTotal ≠ none) ?_ ?_ _ _ ?_ it hit
    · intro u x hx
      rw [backfillFromUnit_lineTotal]
      exact hx
    · intro x ⟨v, hv⟩
      rw [hv]
      exact Option.some_ne_none v
    · intro x hx
      simp at hx
  exact ⟨hmain, Or.inr hmain⟩

/-- C10 counterexample: the claim that every emitted item's description
contains a letter fails: on this line the letters sit in the slash-word
tail of a second inline unit fragment, which is removed only after the
letters check, so the item is emitted with an empty description. -/
theorem c10_counterexample :
    parseReceiptItems "2@ 1.50/kg 3@ 2.50/each 9.00" =
      [⟨"", some 3, some (5 / 2), some 9⟩] ∧
    hasLetters "".toList = false :=
  ⟨parse_eval_two_fragments, rfl⟩

/-- Witness for C10 amended at a concrete one-line receipt. -/
theorem c10_amended_line_total_witness :
    (⟨"Milk", none, none, some 2⟩ : ParsedReceiptItem).lineTotal ≠ none ∧
      ((⟨"Milk", none, none, some 2⟩ : ParsedReceiptItem).unitPrice ≠ none ∨
        (⟨"Milk", none, none, some 2⟩ : ParsedReceiptItem).lineTotal ≠ none) :=
  c10_amended_line_total "Milk 2.00" ⟨"Milk", none, none, some 2⟩ (by
    rw [parse_eval_milk]
    exact List.mem_singleton_self _)

theorem parseNat_append (xs : List Char) (c : Char) :
    parseNatDigits (xs ++ [c]) = 10 * parseNatDigits xs + digitVal c := by
  simp [parseNatDigits, List.foldl_append]

theorem digit_char_spec (r : ℕ) (h : r < 10) :
    digitVal (Char.ofNat ('0'.toNat + r)) = r ∧
      isDigitChar (Char.ofNat ('0'.toNat + r)) = true := by
  interval_cases r <;> exact ⟨by decide, by decide⟩

theorem repNatAux_zero (fuel : ℕ) : repNatAux fuel 0 = [] := by
  cases fuel <;> simp [repNatAux]

theorem repNatAux_spec :
    ∀ fuel n, n ≤ fuel →
      (∀ c ∈ repNatAux fuel n, isDigitChar c = true) ∧
        parseNatDigits (repNatAux fuel n) = n := by
  intro fuel
  induction fuel with
  | zero =>
    intro n hn
    have : n = 0 := by omega
    subst this
    exact ⟨by simp [repNatAux], by simp [repNatAux, parseNatDigits]⟩
  | succ fuel ih =>
    intro n hn
    by_cases h0 : n = 0
    · subst h0
      exact ⟨by simp [repNatAux], by simp [repNatAux, parseNatDigits]⟩
    · have hdiv : n / 10 ≤ fuel := by
        have : n / 10 < n := Nat.div_lt_self (by omega) (by omega)
        omega
      have IH := ih (n / 10) hdiv
      have hmod : n % 10 < 10 := Nat.mod_lt _ (by omega)
      have hc := digit_char_spec (n % 10) hmod
      constructor
      · intro c hc2
        rw [show repNatAux (fuel + 1) n =
          repNatAux fuel (n / 10) ++ [Char.ofNat ('0'.toNat + n % 10)] from by
            simp [repNatAux, h0]] at hc2
        rcases List.mem_append.mp hc2 with hm | hm
        · exact IH.1 c hm
        · rw [List.mem_singleton.mp hm]
          exact hc.2
      · rw [show repNatAux (fuel + 1) n =
          repNatAux fuel (n / 10) ++ [Char.ofNat ('0'.toNat + n % 10)] from by
            simp [repNatAux, h0]]
        rw [parseNat_append, IH.2, hc.1]
        omega

theorem repNat_digits (n : ℕ) : ∀ c ∈ repNat n, isDigitChar c = true := by
  unfold repNat
  split
  · intro c hc; rw [List.mem_singleton.mp hc]; decide
  · exact (repNatAux_spec (n + 1) n (by omega)).1

theorem repNat_parse (n : ℕ) : parseNatDigits (repNat n) = n := by
  unfold repNat
  split
  · subst_vars; decide
  · exact (repNatAux_spec (n + 1) n (by omega)).2

theorem repNatAux_len1 :
    ∀ fuel n, n ≤ fuel → 1 ≤ n → n ≤ 9 → (repNatAux fuel n).length = 1 := by
  intro fuel
  cases fuel with
  | zero => intro n h1 h2 h3; omega
  | succ fuel =>
    intro n h1 h2 h3
    rw [show repNatAux (fuel + 1) n =
      repNatAux fuel (n / 10) ++ [Char.ofNat ('0'.toNat + n % 10)] from by
        simp [repNatAux]; omega]
    have : n / 10 = 0 := by omega
    rw [this, repNatAux_zero]
    rfl

theorem repNatAux_len2 :
    ∀ fuel n, n ≤ fuel → 10 ≤ n → n ≤ 99 → (repNatAux fuel n).length = 2 := by
  intro fuel
  cases fuel with
  | zero => intro n h1 h2 h3; omega
  | succ fuel =>
    intro n h1 h2 h3
    rw [show repNatAux (fuel + 1) n =
      repNatAux fuel (n / 10) ++ [Char.ofNat ('0'.toNat + n % 10)] from by
        simp [repNatAux]; omega]
    have hd : n / 10 ≤ fuel := by
      have : n / 10 < n := Nat.div_lt_self (by omega) (by omega)
      omega
    rw [List.length_append, repNatAux_len1 fuel (n / 10) hd (by omega) (by omega)]
    rfl

theorem repNatAux_len3 :
    ∀ fuel n, n ≤ fuel → 100 ≤ n → n ≤ 999 → (repNatAux fuel n).length = 3 := by
  intro fuel
  cases fuel with
  | zero => intro n h1 h2 h3; omega
  | succ fuel =>
    intro n h1 h2 h3
    rw [show repNatAux (fuel + 1) n =
      repNatAux fuel (n / 10) ++ [Char.ofNat ('0'.toNat + n % 10)] from by
        simp [repNatAux]; omega]
    have hd : n / 10 ≤ fuel := by
      have : n / 10 < n := Nat.div_lt_self (by omega) (by omega)
      omega
    rw [List.length_append, repNatAux_len2 fuel (n / 10) hd (by omega) (by omega)]
    rfl

theorem repNatAux_len4 :
    ∀ fuel n, n ≤ fuel → 1000 ≤ n → n ≤ 9999 → (repNatAux fuel n).length = 4 := by
  intro fuel
  cases fuel with
  | zero => intro n h1 h2 h3; omega
  | succ fuel =>
    intro n h1 h2 h3
    rw [show repNatAux (fuel + 1) n =
      repNatAux fuel (n / 10) ++ [Char.ofNat ('0'.toNat + n % 10)] from by
        simp [repNatAux]; omega]
    have hd : n / 10 ≤ fuel := by
      have : n / 10 < n := Nat.div_lt_self (by omega) (by omega)
      omega
    rw [List.length_append, repNatAux_len3 fuel (n / 10) hd (by omega) (by omega)]
    rfl

theorem repNat_shape4 (n : ℕ) (h1 : 1000 ≤ n) (h2 : n ≤ 9999) :
    ∃ a b c d : Char, repNat n = [a, b, c, d] ∧
      isDigitChar a = true ∧ isDigitChar b = true ∧ isDigitChar c = true ∧
      isDigitChar d = true ∧ parseNatDigits [a, b, c, d] = n := by
  have hlen : (repNat n).length = 4 := by
    unfold repNat
    rw [if_neg (by omega)]
    exact repNatAux_len4 (n + 1) n (by omega) h1 h2
  have hdig := repNat_digits n
  have hparse := repNat_parse n
  rcases hl : repNat n with _ | ⟨a, _ | ⟨b, _ | ⟨c, _ | ⟨d, rest⟩⟩⟩⟩ <;>
    rw [hl] at hlen <;> simp at hlen
  subst hlen
  rw [hl] at hdig hparse
  exact ⟨a, b, c, d, rfl, hdig a (by simp), hdig b (by simp), hdig c (by simp),
    hdig d (by simp), hparse⟩

theorem parseNat_cons_zero (xs : List Char) :
    parseNatDigits ('0' :: xs) = parseNatDigits xs := by
  simp [parseNatDigits, digitVal]

theorem pad2_shape (n : ℕ) (h : n ≤ 99) :
    ∃ a b : Char, pad2 n = [a, b] ∧ isDigitChar a = true ∧
      isDigitChar b = true ∧ parseNatDigits [a, b] = n := by
  unfold pad2
  split
  · next hlt =>
    have hlen : (repNat n).length = 1 := by
      unfold repNat
      split
      · rfl
      · exact repNatAux_len1 (n + 1) n (by omega) (by omega) (by omega)
    have hdig := repNat_digits n
    have hparse := repNat_parse n
    rcases hl : repNat n with _ | ⟨a, _ | ⟨b, rest⟩⟩ <;>
      rw [hl] at hlen <;> simp at hlen
    rw [hl] at hdig hparse
    refine ⟨'0', a, rfl, by decide, hdig a (by simp), ?_⟩
    rw [parseNat_cons_zero]
    exact hparse
  · next hge =>
    have hlen : (repNat n).length = 2 := by
      unfold repNat
      rw [if_neg (by omega)]
      exact repNatAux_len2 (n + 1) n (by omega) (by omega) h
    have hdig := repNat_digits n
    have hparse := repNat_parse n
    rcases hl : repNat n with _ | ⟨a, _ | ⟨b, _ | ⟨c, rest⟩⟩⟩ <;>
      rw [hl] at hlen <;> simp at hlen
    rw [hl] at hdig hparse
    exact ⟨a, b, rfl, hdig a (by simp), hdig b (by simp), hparse⟩

theorem digit_not_ws (c : Char) (h : isDigitChar c = true) :
    isWsChar c = false := by
  cases hw : isWsChar c
  · rfl
  · exfalso
    simp only [isWsChar, Bool.or_eq_true, decide_eq_true_eq] at hw
    rcases hw with ((((rfl | rfl) | rfl) | rfl) | rfl) | rfl <;>
      exact absurd h (by decide)

theorem fixDay_id (fuel : ℕ) (y m d : ℤ) (h1 : 1 ≤ d)
    (h2 : d ≤ daysInMonth y m) : fixDay fuel y m d = (y, m, d) := by
  cases fuel with
  | zero => rfl
  | succ fuel =>
    unfold fixDay
    rw [if_neg (by omega), if_neg (by omega)]

theorem daysInMonth_bounds (y m : ℤ) :
    28 ≤ daysInMonth y m ∧ daysInMonth y m ≤ 31 := by
  unfold daysInMonth
  split
  · split <;> omega
  · split <;> omega

theorem daysFromCivil_bound (y m d : ℤ) (hy1 : 1000 ≤ y) (hy2 : y ≤ 9999)
    (hm1 : 1 ≤ m) (hm2 : m ≤ 12) (hd1 : 1 ≤ d) (hd2 : d ≤ 31) :
    -400000 ≤ daysFromCivil y m d ∧ daysFromCivil y m d ≤ 3100000 := by
  unfold daysFromCivil
  by_cases hle : m ≤ 2 <;>
    simp only [hle, if_pos, if_neg, ite_true, ite_false] <;> omega

theorem mkJsDate_valid (y m d h mi s : ℕ)
    (hm1 : 1 ≤ m) (hm2 : m ≤ 12) (hd1 : 1 ≤ d)
    (hd2 : (d : ℤ) ≤ daysInMonth y m)
    (hh : h ≤ 23) (hmi : mi ≤ 59) (hs : s ≤ 59) :
    mkJsDate y ((m : ℤ) - 1) d h mi s =
      ⟨(y : ℤ), (m : ℤ), (d : ℤ), (h : ℤ), (mi : ℤ), (s : ℤ)⟩ := by
  unfold mkJsDate
  have e1 : (y : ℤ) + ((m : ℤ) - 1) / 12 = y := by omega
  have e2 : ((m : ℤ) - 1) % 12 + 1 = m := by omega
  have e3 : ((h : ℤ) * 3600 + (mi : ℤ) * 60 + (s : ℤ)) / 86400 = 0 := by omega
  have e4 : ((h : ℤ) * 3600 + (mi : ℤ) * 60 + (s : ℤ)) % 86400 =
      (h : ℤ) * 3600 + (mi : ℤ) * 60 + (s : ℤ) := by omega
  have e5 : ((h : ℤ) * 3600 + (mi : ℤ) * 60 + (s : ℤ)) / 3600 = h := by omega
  have e6 : ((h : ℤ) * 3600 + (mi : ℤ) * 60 + (s : ℤ)) % 3600 / 60 = mi := by
    omega
  have e7 : ((h : ℤ) * 3600 + (mi : ℤ) * 60 + (s : ℤ)) % 60 = s := by omega
  dsimp only
  rw [e3, e4, e5, e6, e7, e1, e2]
  rw [show (d : ℤ) + 0 = (d : ℤ) from by omega]
  rw [fixDay_id 5000 y m d (by omega) hd2]

theorem buildDate_valid (y m d h mi s : ℕ)
    (hy1 : 1000 ≤ y) (hy2 : y ≤ 9999)
    (hm1 : 1 ≤ m) (hm2 : m ≤ 12) (hd1 : 1 ≤ d)
    (hd2 : (d : ℤ) ≤ daysInMonth y m)
    (hh : h ≤ 23) (hmi : mi ≤ 59) (hs : s ≤ 59) :
    buildDate y ((m : ℤ) - 1) d h mi s =
      some ⟨(y : ℤ), (m : ℤ), (d : ℤ), (h : ℤ), (mi : ℤ), (s : ℤ)⟩ := by
  unfold buildDate
  rw [mkJsDate_valid y m d h mi s hm1 hm2 hd1 hd2 hh hmi hs]
  have hb := daysFromCivil_bound y m d (by omega) (by omega) (by omega)
    (by omega) (by omega)
    (le_trans hd2 (daysInMonth_bounds (y : ℤ) (m : ℤ)).2)
  rw [if_neg]
  unfold JsDate.getTime
  dsimp only
  omega

theorem formatDateTimeLocal_canon (y m d h mi s : ℕ) :
    formatDateTimeLocal ⟨(y : ℤ), (m : ℤ), (d : ℤ), (h : ℤ), (mi : ℤ), (s : ℤ)⟩ =
      repNat y ++ '-' :: pad2 m ++ '-' :: pad2 d ++
        ' ' :: pad2 h ++ ':' :: pad2 mi ++ ':' :: pad2 s := by
  unfold formatDateTimeLocal repInt pad2Int
  dsimp only
  rw [if_neg (by omega)]
  simp [Int.toNat_natCast]

theorem c6_core_hms (y m d h mi s : ℕ)
    (hy1 : 1000 ≤ y) (hy2 : y ≤ 9999) (hm1 : 1 ≤ m) (hm2 : m ≤ 12)
    (hd1 : 1 ≤ d) (hd2 : (d : ℤ) ≤ daysInMonth y m)
    (hh : h ≤ 23) (hmi : mi ≤ 59) (hs : s ≤ 59) :
    parseFlexibleDateTime false 0
      (repNat y ++ '-' :: pad2 m ++ '-' :: pad2 d ++
        ' ' :: pad2 h ++ ':' :: pad2 mi ++ ':' :: pad2 s) =
      some ⟨(y : ℤ), (m : ℤ), (d : ℤ), (h : ℤ), (mi : ℤ), (s : ℤ)⟩ := by
  have hd99 : d ≤ 31 := by
    have := (daysInMonth_bounds (y : ℤ) (m : ℤ)).2
    omega
  obtain ⟨a, b, c, e, hy, had, hbd, hcd, hed, hpy⟩ := repNat_shape4 y hy1 hy2
  obtain ⟨m1, m2, hmeq, hm1d, hm2d, hpm⟩ := pad2_shape m (by omega)
  obtain ⟨d1, d2, hdeq, hd1d, hd2d, hpd⟩ := pad2_shape d (by omega)
  obtain ⟨h1, h2, hheq, hh1d, hh2d, hph⟩ := pad2_shape h (by omega)
  obtain ⟨i1, i2, hieq, hi1d, hi2d, hpi⟩ := pad2_shape mi (by omega)
  obtain ⟨s1, s2, hseq, hs1d, hs2d, hps⟩ := pad2_shape s (by omega)
  rw [hy, hmeq, hdeq, hheq, hieq, hseq]
  have wa := digit_not_ws a had
  have wb := digit_not_ws b hbd
  have wc := digit_not_ws c hcd
  have we := digit_not_ws e hed
  have wm1 := digit_not_ws m1 hm1d
  have wm2 := digit_not_ws m2 hm2d
  have wd1 := digit_not_ws d1 hd1d
  have wd2 := digit_not_ws d2 hd2d
  have wh1 := digit_not_ws h1 hh1d
  have wh2 := digit_not_ws h2 hh2d
  have wi1 := digit_not_ws i1 hi1d
  have wi2 := digit_not_ws i2 hi2d
  have ws1 := digit_not_ws s1 hs1d
  have ws2 := digit_not_ws s2 hs2d
  unfold parseFlexibleDateTime
  have hnorm : jsTrim (collapseWs
      ([a, b, c, e] ++ '-' :: [m1, m2] ++ '-' :: [d1, d2] ++
        ' ' :: [h1, h2] ++ ':' :: [i1, i2] ++ ':' :: [s1, s2])) =
      [a, b, c, e] ++ '-' :: [m1, m2] ++ '-' :: [d1, d2] ++
        ' ' :: [h1, h2] ++ ':' :: [i1, i2] ++ ':' :: [s1, s2] := by
    simp +decide [collapseWs, collapseAfterWs, jsTrim, List.dropWhile,
      wa, wb, wc, we, wm1, wm2, wd1, wd2, wh1, wh2, wi1, wi2, ws1, ws2]
  rw [hnorm]
  rw [if_neg (by simp)]
  have hmatch : matchYmdAt
      ([a, b, c, e] ++ '-' :: [m1, m2] ++ '-' :: [d1, d2] ++
        ' ' :: [h1, h2] ++ ':' :: [i1, i2] ++ ':' :: [s1, s2]) =
      some ⟨[a, b, c, e], [m1, m2], [d1, d2], some [h1, h2], some [i1, i2],
        some [s1, s2], none⟩ := by
    have wsp : isWsChar ' ' = true := by decide
    simp +decide [matchYmdAt, twoDigitsThenSep, oneOrTwoDigits, matchTimeOpt,
      matchMeridiem, twoDigitsThen, List.takeWhile, wsp,
      had, hbd, hcd, hed, hm1d, hm2d, hd1d, hd2d, hh1d, hh2d, hi1d, hi2d,
      hs1d, hs2d, wh1, ws1]
  have hsearch : searchMatch matchYmdAt
      ([a, b, c, e] ++ '-' :: [m1, m2] ++ '-' :: [d1, d2] ++
        ' ' :: [h1, h2] ++ ':' :: [i1, i2] ++ ':' :: [s1, s2]) =
      some ⟨[a, b, c, e], [m1, m2], [d1, d2], some [h1, h2], some [i1, i2],
        some [s1, s2], none⟩ := by
    rw [show ([a, b, c, e] ++ '-' :: [m1, m2] ++ '-' :: [d1, d2] ++
        ' ' :: [h1, h2] ++ ':' :: [i1, i2] ++ ':' :: [s1, s2]) =
        a :: (b :: c :: e :: '-' :: [m1, m2] ++ '-' :: [d1, d2] ++
        ' ' :: [h1, h2] ++ ':' :: [i1, i2] ++ ':' :: [s1, s2]) from by simp]
    unfold searchMatch
    rw [show (a :: (b :: c :: e :: '-' :: [m1, m2] ++ '-' :: [d1, d2] ++
        ' ' :: [h1, h2] ++ ':' :: [i1, i2] ++ ':' :: [s1, s2])) =
        ([a, b, c, e] ++ '-' :: [m1, m2] ++ '-' :: [d1, d2] ++
        ' ' :: [h1, h2] ++ ':' :: [i1, i2] ++ ':' :: [s1, s2]) from by simp]
    rw [hmatch]
  unfold tryYmd
  rw [hsearch]
  dsimp only
  simp only [applyMeridiem, capToInt]
  rw [hpy, hpm, hpd, hph, hpi, hps]
  rw [buildDate_valid y m d h mi s hy1 hy2 hm1 hm2 hd1 hd2 hh hmi hs]
  simp [Option.orElse]

theorem c6_core_hm (y m d h mi : ℕ)
    (hy1 : 1000 ≤ y) (hy2 : y ≤ 9999) (hm1 : 1 ≤ m) (hm2 : m ≤ 12)
    (hd1 : 1 ≤ d) (hd2 : (d : ℤ) ≤ daysInMonth y m)
    (hh : h ≤ 23) (hmi : mi ≤ 59) :
    parseFlexibleDateTime false 0
      (repNat y ++ '-' :: pad2 m ++ '-' :: pad2 d ++
        ' ' :: pad2 h ++ ':' :: pad2 mi) =
      some ⟨(y : ℤ), (m : ℤ), (d : ℤ), (h : ℤ), (mi : ℤ), 0⟩ := by
  have hd99 : d ≤ 31 := by
    have := (daysInMonth_bounds (y : ℤ) (m : ℤ)).2
    omega
  obtain ⟨a, b, c, e, hy, had, hbd, hcd, hed, hpy⟩ := repNat_shape4 y hy1 hy2
  obtain ⟨m1, m2, hmeq, hm1d, hm2d, hpm⟩ := pad2_shape m (by omega)
  obtain ⟨d1, d2, hdeq, hd1d, hd2d, hpd⟩ := pad2_shape d (by omega)
  obtain ⟨h1, h2, hheq, hh1d, hh2d, hph⟩ := pad2_shape h (by omega)
  obtain ⟨i1, i2, hieq, hi1d, hi2d, hpi⟩ := pad2_shape mi (by omega)
  rw [hy, hmeq, hdeq, hheq, hieq]
  have wa := digit_not_ws a had
  have wb := digit_not_ws b hbd
  have wc := digit_not_ws c hcd
  have we := digit_not_ws e hed
  have wm1 := digit_not_ws m1 hm1d
  have wm2 := digit_not_ws m2 hm2d
  have wd1 := digit_not_ws d1 hd1d
  have wd2 := digit_not_ws d2 hd2d
  have wh1 := digit_not_ws h1 hh1d
  have wh2 := digit_not_ws h2 hh2d
  have wi1 := digit_not_ws i1 hi1d
  have wi2 := digit_not_ws i2 hi2d
  unfold parseFlexibleDateTime
  have hnorm : jsTrim (collapseWs
      ([a, b, c, e] ++ '-' :: [m1, m2] ++ '-' :: [d1, d2] ++
        ' ' :: [h1, h2] ++ ':' :: [i1, i2])) =
      [a, b, c, e] ++ '-' :: [m1, m2] ++ '-' :: [d1, d2] ++
        ' ' :: [h1, h2] ++ ':' :: [i1, i2] := by
    simp +decide [collapseWs, collapseAfterWs, jsTrim, List.dropWhile,
      wa, wb, wc, we, wm1, wm2, wd1, wd2, wh1, wh2, wi1, wi2]
  rw [hnorm]
  rw [if_neg (by simp)]
  have hmatch : matchYmdAt
      ([a, b, c, e] ++ '-' :: [m1, m2] ++ '-' :: [d1, d2] ++
        ' ' :: [h1, h2] ++ ':' :: [i1, i2]) =
      some ⟨[a, b, c, e], [m1, m2], [d1, d2], some [h1, h2], some [i1, i2],
        none, none⟩ := by
    have wsp : isWsChar ' ' = true := by decide
    simp +decide [matchYmdAt, twoDigitsThenSep, oneOrTwoDigits, matchTimeOpt,
      matchMeridiem, twoDigitsThen, List.takeWhile, wsp,
      had, hbd, hcd, hed, hm1d, hm2d, hd1d, hd2d, hh1d, hh2d, hi1d, hi2d,
      wh1]
  have hsearch : searchMatch matchYmdAt
      ([a, b, c, e] ++ '-' :: [m1, m2] ++ '-' :: [d1, d2] ++
        ' ' :: [h1, h2] ++ ':' :: [i1, i2]) =
      some ⟨[a, b, c, e], [m1, m2], [d1, d2], some [h1, h2], some [i1, i2],
        none, none⟩ := by
    rw [show ([a, b, c, e] ++ '-' :: [m1, m2] ++ '-' :: [d1, d2] ++
        ' ' :: [h1, h2] ++ ':' :: [i1, i2]) =
        a :: (b :: c :: e :: '-' :: [m1, m2] ++ '-' :: [d1, d2] ++
        ' ' :: [h1, h2] ++ ':' :: [i1, i2]) from by simp]
    unfold searchMatch
    rw [show (a :: (b :: c :: e :: '-' :: [m1, m2] ++ '-' :: [d1, d2] ++
        ' ' :: [h1, h2] ++ ':' :: [i1, i2])) =
        ([a, b, c, e] ++ '-' :: [m1, m2] ++ '-' :: [d1, d2] ++
        ' ' :: [h1, h2] ++ ':' :: [i1, i2]) from by simp]
    rw [hmatch]
  unfold tryYmd
  rw [hsearch]
  dsimp only
  simp only [applyMeridiem, capToInt]
  rw [hpy, hpm, hpd, hph, hpi]
  rw [show (0 : ℤ) = ((0 : ℕ) : ℤ) from rfl]
  rw [buildDate_valid y m d h mi 0 hy1 hy2 hm1 hm2 hd1 hd2 hh hmi (by omega)]
  simp [Option.orElse]

theorem c6_core_date (y m d : ℕ)
    (hy1 : 1000 ≤ y) (hy2 : y ≤ 9999) (hm1 : 1 ≤ m) (hm2 : m ≤ 12)
    (hd1 : 1 ≤ d) (hd2 : (d : ℤ) ≤ daysInMonth y m) :
    parseFlexibleDateTime false 0
      (repNat y ++ '-' :: pad2 m ++ '-' :: pad2 d) =
      some ⟨(y : ℤ), (m : ℤ), (d : ℤ), 0, 0, 0⟩ := by
  have hd99 : d ≤ 31 := by
    have := (daysInMonth_bounds (y : ℤ) (m : ℤ)).2
    omega
  obtain ⟨a, b, c, e, hy, had, hbd, hcd, hed, hpy⟩ := repNat_shape4 y hy1 hy2
  obtain ⟨m1, m2, hmeq, hm1d, hm2d, hpm⟩ := pad2_shape m (by omega)
  obtain ⟨d1, d2, hdeq, hd1d, hd2d, hpd⟩ := pad2_shape d (by omega)
  rw [hy, hmeq, hdeq]
  have wa := digit_not_ws a had
  have wb := digit_not_ws b hbd
  have wc := digit_not_ws c hcd
  have we := digit_not_ws e hed
  have wm1 := digit_not_ws m1 hm1d
  have wm2 := digit_not_ws m2 hm2d
  have wd1 := digit_not_ws d1 hd1d
  have wd2 := digit_not_ws d2 hd2d
  unfold parseFlexibleDateTime
  have hnorm : jsTrim (collapseWs
      ([a, b, c, e] ++ '-' :: [m1, m2] ++ '-' :: [d1, d2])) =
      [a, b, c, e] ++ '-' :: [m1, m2] ++ '-' :: [d1, d2] := by
    simp +decide [collapseWs, collapseAfterWs, jsTrim, List.dropWhile,
      wa, wb, wc, we, wm1, wm2, wd1, wd2]
  rw [hnorm]
  rw [if_neg (by simp)]
  have hmatch : matchYmdAt
      ([a, b, c, e] ++ '-' :: [m1, m2] ++ '-' :: [d1, d2]) =
      some ⟨[a, b, c, e], [m1, m2], [d1, d2], none, none, none, none⟩ := by
    simp +decide [matchYmdAt, twoDigitsThenSep, oneOrTwoDigits, matchTimeOpt,
      matchMeridiem, twoDigitsThen, List.takeWhile,
      had, hbd, hcd, hed, hm1d, hm2d, hd1d, hd2d]
  have hsearch : searchMatch matchYmdAt
      ([a, b, c, e] ++ '-' :: [m1, m2] ++ '-' :: [d1, d2]) =
      some ⟨[a, b, c, e], [m1, m2], [d1, d2], none, none, none, none⟩ := by
    rw [show ([a, b, c, e] ++ '-' :: [m1, m2] ++ '-' :: [d1, d2]) =
        a :: (b :: c :: e :: '-' :: [m1, m2] ++ '-' :: [d1, d2]) from by simp]
    unfold searchMatch
    rw [show (a :: (b :: c :: e :: '-' :: [m1, m2] ++ '-' :: [d1, d2])) =
        ([a, b, c, e] ++ '-' :: [m1, m2] ++ '-' :: [d1, d2]) from by simp]
    rw [hmatch]
  unfold tryYmd
  rw [hsearch]
  dsimp only
  simp only [applyMeridiem, capToInt]
  rw [hpy, hpm, hpd]
  rw [show (0 : ℤ) = ((0 : ℕ) : ℤ) from rfl]
  rw [buildDate_valid y m d 0 0 0 hy1 hy2 hm1 hm2 hd1 hd2 (by omega) (by omega)
    (by omega)]
  simp [Option.orElse]

/-- C6: the scan/manual date normalizer round-trips canonical forms: for any
valid calendar date with a four-digit year, `normalizeReceiptDateTime`
maps the date-only string `YYYY-MM-DD` to `YYYY-MM-DD 00:00:00`, the
minutes-precision string `YYYY-MM-DD HH:MM` to `YYYY-MM-DD HH:MM:SS` with
`SS = 00`, and the full canonical string `YYYY-MM-DD HH:MM:SS` to itself
(normalizing is idempotent on its own output); concretely
`"2025-01-14 13:45"` becomes `"2025-01-14 13:45:00"`. -/
theorem c6_normalize_roundtrip :
    (∀ y m d h mi s : ℕ,
      1000 ≤ y → y ≤ 9999 → 1 ≤ m → m ≤ 12 → 1 ≤ d →
      (d : ℤ) ≤ daysInMonth y m → h ≤ 23 → mi ≤ 59 → s ≤ 59 →
      normalizeReceiptDateTime
          (String.mk (repNat y ++ '-' :: pad2 m ++ '-' :: pad2 d)) =
        some (String.mk (canonChars y m d 0 0 0)) ∧
      normalizeReceiptDateTime
          (String.mk (repNat y ++ '-' :: pad2 m ++ '-' :: pad2 d ++
            ' ' :: pad2 h ++ ':' :: pad2 mi)) =
        some (String.mk (canonChars y m d h mi 0)) ∧
      normalizeReceiptDateTime (String.mk (canonChars y m d h mi s)) =
        some (String.mk (canonChars y m d h mi s))) ∧
    normalizeReceiptDateTime "2025-01-14 13:45" =
      some "2025-01-14 13:45:00" := by
  constructor
  · intro y m d h mi s hy1 hy2 hm1 hm2 hd1 hd2 hh hmi hs
    refine ⟨?_, ?_, ?_⟩
    · show (parseFlexibleDateTime false 0
          (repNat y ++ '-' :: pad2 m ++ '-' :: pad2 d)).map
          (fun dt => String.mk (formatDateTimeLocal dt)) =
        some (String.mk (canonChars y m d 0 0 0))
      rw [c6_core_date y m d hy1 hy2 hm1 hm2 hd1 hd2]
      have hf := formatDateTimeLocal_canon y m d 0 0 0
      push_cast at hf
      simp only [Option.map_some']
      rw [hf]
      rfl
    · show (parseFlexibleDateTime false 0
          (repNat y ++ '-' :: pad2 m ++ '-' :: pad2 d ++
            ' ' :: pad2 h ++ ':' :: pad2 mi)).map
          (fun dt => String.mk (formatDateTimeLocal dt)) =
        some (String.mk (canonChars y m d h mi 0))
      rw [c6_core_hm y m d h mi hy1 hy2 hm1 hm2 hd1 hd2 hh hmi]
      have hf := formatDateTimeLocal_canon y m d h mi 0
      push_cast at hf
      simp only [Option.map_some']
      rw [hf]
      rfl
    · show (parseFlexibleDateTime false 0
          (repNat y ++ '-' :: pad2 m ++ '-' :: pad2 d ++
            ' ' :: pad2 h ++ ':' :: pad2 mi ++ ':' :: pad2 s)).map
          (fun dt => String.mk (formatDateTimeLocal dt)) =
        some (String.mk (canonChars y m d h mi s))
      rw [c6_core_hms y m d h mi s hy1 hy2 hm1 hm2 hd1 hd2 hh hmi hs]
      have hf := formatDateTimeLocal_canon y m d h mi s
      simp only [Option.map_some']
      rw [hf]
      rfl
  · decide

theorem c6_normalize_roundtrip_witness :
    normalizeReceiptDateTime
        (String.mk (repNat 2025 ++ '-' :: pad2 1 ++ '-' :: pad2 14)) =
      some (String.mk (canonChars 2025 1 14 0 0 0)) ∧
    normalizeReceiptDateTime
        (String.mk (repNat 2025 ++ '-' :: pad2 1 ++ '-' :: pad2 14 ++
          ' ' :: pad2 13 ++ ':' :: pad2 45)) =
      some (String.mk (canonChars 2025 1 14 13 45 0)) ∧
    normalizeReceiptDateTime (String.mk (canonChars 2025 1 14 13 45 30)) =
      some (String.mk (canonChars 2025 1 14 13 45 30)) :=
  c6_normalize_roundtrip.1 2025 1 14 13 45 30 (by norm_num) (by norm_num)
    (by norm_num) (by norm_num) (by norm_num) (by decide) (by norm_num)
    (by norm_num) (by norm_num)

end ReceiptScanner
